import Mathlib

/-!
Verification development for the brand-studio geometry engine.

The TypeScript sources are shallowly embedded: JS numbers are modelled by
exact rationals (the evaluator, which takes a square root, is modelled over
the reals), JS exceptions by `Option`/`Except`, and the two external
collaborators — the clipper-lib Boolean kernel and the glyph outline
provider `textToPath` — are abstracted as function parameters, so theorems
quantify over every possible behaviour of those collaborators.
-/

namespace BrandStudio

/-! ### JS integer helpers -/

/-- Wrap an integer to the signed 32-bit range, as JS `| 0` does. -/
def toInt32 (n : ℤ) : ℤ := ((n + 2 ^ 31) % 2 ^ 32) - 2 ^ 31

/-- JS `Math.round`: round half toward positive infinity. -/
def jsRound (q : ℚ) : ℤ := ⌊q + 1 / 2⌋

/-! ### Decimal rendering of rationals

JS renders numbers with `${...}` template interpolation.  We render a
rational exactly: integers as plain digit strings, finite decimals with a
decimal point, and (never reached by the concrete inputs used in this file)
other rationals as `num/den`.  Only the digit characters and `-`, `.`, `/`
can occur, which is all the structural theorems below rely on. -/

/-- Character for a decimal digit `d < 10`. -/
def digitChar (d : ℕ) : Char := Char.ofNat (48 + d)

/-- Digit string of a natural number (fuel-based helper). -/
def natDigitsAux : ℕ → ℕ → List Char
  | 0, _ => []
  | fuel + 1, n =>
    if n < 10 then [digitChar n]
    else natDigitsAux fuel (n / 10) ++ [digitChar (n % 10)]

/-- Digit string of a natural number. -/
def natDigitsStr (n : ℕ) : String := String.mk (natDigitsAux (n + 1) n)

/-- Render an integer in decimal. -/
def intStr (n : ℤ) : String :=
  if n < 0 then ("-") ++ natDigitsStr n.natAbs else natDigitsStr n.natAbs

/-- Left-pad a digit list with zeros to length `k`. -/
def padZeros (l : List Char) (k : ℕ) : List Char :=
  List.replicate (k - l.length) '0' ++ l

/-- Render a rational exactly, preferring plain/decimal notation. -/
def ratToStr (q : ℚ) : String :=
  if q.den = 1 then intStr q.num
  else
    match (List.range 40).find? (fun k => (q * (10 : ℚ) ^ (k + 1)).den = 1) with
    | some k0 =>
      let k := k0 + 1
      let n := (q * (10 : ℚ) ^ k).num
      let a := n.natAbs
      let ip := a / 10 ^ k
      let fp := a % 10 ^ k
      (if n < 0 then ("-") else ("")) ++ natDigitsStr ip ++ (".") ++
        String.mk (padZeros (natDigitsStr fp).toList k)
    | none => intStr q.num ++ ("/") ++ natDigitsStr q.den

/-! ### The token scanner of `pathDToPolygons`

Models the JS global regex `-?[\d.e]+|[MLCQAZ]` (flags `gi`): at each position the
scanner first tries a maximal run of number characters (digits, `.`, `e`,
`E`, with an optional leading `-`), then a single command letter from
`MLCQAZ` in either case, and otherwise skips one character. -/

/-- Characters allowed inside a numeric token (`[\d.e]` with the `i` flag). -/
def isNumTokChar (c : Char) : Bool := c.isDigit || c = '.' || c = 'e' || c = 'E'

/-- Command letters (`[MLCQAZ]` with the `i` flag). -/
def isCmdTokChar (c : Char) : Bool :=
  c = 'M' || c = 'L' || c = 'C' || c = 'Q' || c = 'A' || c = 'Z' ||
  c = 'm' || c = 'l' || c = 'c' || c = 'q' || c = 'a' || c = 'z'

lemma length_dropWhile_le' (p : Char → Bool) (l : List Char) :
    (l.dropWhile p).length ≤ l.length := by
  induction l with
  | nil => simp [List.dropWhile]
  | cons a t ih =>
    by_cases h : p a
    · simp [List.dropWhile, h]; omega
    · simp [List.dropWhile, h]

/-- Token scan over a character list.  Structural recursion on a fuel
argument (every step consumes at least one character, so `l.length` fuel
always suffices); fuel keeps the definition kernel-reducible. -/
def tokenizeAuxF : ℕ → List Char → List String
  | _, [] => []
  | 0, _ :: _ => []
  | fuel + 1, c :: cs =>
    if c = '-' then
      if (cs.head?.map isNumTokChar).getD false then
        String.mk ('-' :: cs.takeWhile isNumTokChar) ::
          tokenizeAuxF fuel (cs.dropWhile isNumTokChar)
      else tokenizeAuxF fuel cs
    else if isNumTokChar c then
      String.mk (c :: cs.takeWhile isNumTokChar) ::
        tokenizeAuxF fuel (cs.dropWhile isNumTokChar)
    else if isCmdTokChar c then
      String.mk [c] :: tokenizeAuxF fuel cs
    else tokenizeAuxF fuel cs

/-- Token scan with sufficient fuel. -/
def tokenizeAux (l : List Char) : List String := tokenizeAuxF l.length l

/-- The source first replaces commas by spaces (`pathD.replace(/,/g, " ")`). -/
def jsReplaceCommas (s : String) : String :=
  String.mk (s.toList.map (fun c => if c = ',' then ' ' else c))

/-- Tokens of a path string. -/
def tokenize (s : String) : List String := tokenizeAux (jsReplaceCommas s).toList

/-! ### A model of JS `parseFloat` plus the `Number.isFinite` check

`parseFloat` parses the longest numeric-literal prefix; if there is none the
result is NaN, and a literal beyond the double range is Infinity.  The
parser in the source coerces both cases to `0`, so we model
`parseFloat`+finiteness as `Option ℚ`: `none` for NaN/Infinity.  Exact
decimal values are kept (no binary rounding); the overflow/underflow cutoff
is approximated at `10 ^ ±400`, comfortably beyond every value this
repository manipulates. -/

/-- Value of a digit list read in base 10. -/
def digitsVal (l : List Char) : ℕ := l.foldl (fun a c => a * 10 + (c.toNat - 48)) 0

/-- Model of `parseFloat` restricted to finite results. -/
def jsParseFloat (s : String) : Option ℚ :=
  let cs := s.toList
  let sgncs : ℚ × List Char :=
    match cs with
    | '-' :: r => (-1, r)
    | '+' :: r => (1, r)
    | _ => (1, cs)
  let sgn := sgncs.1
  let cs1 := sgncs.2
  let ip := cs1.takeWhile Char.isDigit
  let cs2 := cs1.dropWhile Char.isDigit
  let fpcs : List Char × List Char :=
    match cs2 with
    | '.' :: r => (r.takeWhile Char.isDigit, r.dropWhile Char.isDigit)
    | _ => ([], cs2)
  let fp := fpcs.1
  let cs3 := fpcs.2
  if ip.isEmpty ∧ fp.isEmpty then none
  else
    let mant : ℚ := (digitsVal ip : ℚ) + (digitsVal fp : ℚ) / (10 : ℚ) ^ fp.length
    let expVal : ℤ :=
      match cs3 with
      | e :: r =>
        if e = 'e' ∨ e = 'E' then
          let esr : ℤ × List Char :=
            match r with
            | '-' :: r2 => (-1, r2)
            | '+' :: r2 => (1, r2)
            | _ => (1, r)
          let ed := esr.2.takeWhile Char.isDigit
          if ed.isEmpty then 0 else esr.1 * (digitsVal ed : ℤ)
        else 0
      | [] => 0
    if mant = 0 then some 0
    else if (ip.length : ℤ) + expVal > 400 then none
    else if (ip.length : ℤ) + expVal < -400 then some 0
    else some (sgn * mant * (10 : ℚ) ^ expVal)

/-! ### `pathDToPolygons` (src/src/wordmarkCustomizer/geometry.ts)

Faithful translation.  Numbers are consumed positionally by `nextNum`
(`parseFloat(tokens[i++] ?? "0")` coerced to `0` when not finite).  A `C` or
`Q` command arriving while the current ring is empty dereferences
`current[-1]` in JS and raises a TypeError; that crash is modelled by
`none`.  Rings are tagged with `true` when they were closed by a `Z`
command (instrumentation only; `pathDToPolygons` erases the tag). -/

/-- A 2D point. -/
abbrev Pt := ℚ × ℚ

/-- A polygon ring. -/
abbrev Polygon := List Pt

/-- Pop one numeric value: `parseFloat(tokens[i++] ?? "0")`, non-finite → 0. -/
def nextNum : List String → ℚ × List String
  | [] => (0, [])
  | t :: r => ((jsParseFloat t).getD 0, r)

/-- Pop two numeric values. -/
def nextNum2 (l : List String) : (ℚ × ℚ) × List String :=
  let a := nextNum l
  let b := nextNum a.2
  ((a.1, b.1), b.2)

/-- Pop four numeric values. -/
def nextNum4 (l : List String) : (ℚ × ℚ × ℚ × ℚ) × List String :=
  let a := nextNum2 l
  let b := nextNum2 a.2
  ((a.1.1, a.1.2, b.1.1, b.1.2), b.2)

/-- Pop six numeric values. -/
def nextNum6 (l : List String) : (ℚ × ℚ × ℚ × ℚ × ℚ × ℚ) × List String :=
  let a := nextNum4 l
  let b := nextNum2 a.2
  ((a.1.1, a.1.2.1, a.1.2.2.1, a.1.2.2.2, b.1.1, b.1.2), b.2)

lemma nextNum_len (l : List String) : (nextNum l).2.length ≤ l.length := by
  cases l <;> simp [nextNum]

lemma nextNum2_len (l : List String) : (nextNum2 l).2.length ≤ l.length := by
  have e : (nextNum2 l).2 = (nextNum (nextNum l).2).2 := rfl
  have h1 := nextNum_len l
  have h2 := nextNum_len (nextNum l).2
  rw [e]; omega

lemma nextNum4_len (l : List String) : (nextNum4 l).2.length ≤ l.length := by
  have e : (nextNum4 l).2 = (nextNum2 (nextNum2 l).2).2 := rfl
  have h1 := nextNum2_len l
  have h2 := nextNum2_len (nextNum2 l).2
  rw [e]; omega

lemma nextNum6_len (l : List String) : (nextNum6 l).2.length ≤ l.length := by
  have e : (nextNum6 l).2 = (nextNum2 (nextNum4 l).2).2 := rfl
  have h1 := nextNum4_len l
  have h2 := nextNum2_len (nextNum4 l).2
  rw [e]; omega

/-- Sample a cubic bezier into `samples+1` points. -/
def sampleCubic (x0 y0 x1 y1 x2 y2 x3 y3 : ℚ) (samples : ℕ) : List Pt :=
  (List.range (samples + 1)).map (fun i =>
    let t : ℚ := (i : ℚ) / (samples : ℚ)
    let u := 1 - t
    let u2 := u * u
    let u3 := u2 * u
    let t2 := t * t
    let t3 := t2 * t
    (u3 * x0 + 3 * u2 * t * x1 + 3 * u * t2 * x2 + t3 * x3,
     u3 * y0 + 3 * u2 * t * y1 + 3 * u * t2 * y2 + t3 * y3))

/-- Sample a quadratic bezier into `samples+1` points (inlined in the source). -/
def sampleQuad (x0 y0 x1 y1 x y : ℚ) (samples : ℕ) : List Pt :=
  (List.range (samples + 1)).map (fun k =>
    let t : ℚ := (k : ℚ) / (samples : ℚ)
    let u := 1 - t
    (u * u * x0 + 2 * u * t * x1 + t * t * x,
     u * u * y0 + 2 * u * t * y1 + t * t * y))

/-- Parser state: emitted rings (tagged by Z-closure), current ring, pen and
subpath-start coordinates. -/
structure PState where
  polys : List (Polygon × Bool)
  current : Polygon
  x : ℚ
  y : ℚ
  sx : ℚ
  sy : ℚ
deriving Repr, DecidableEq

/-- Initial parser state (`x = y = startX = startY = 0`). -/
def initPState : PState := ⟨[], [], 0, 0, 0, 0⟩

/-- One-command step.  Returns the remaining tokens and next state, or `none`
for the JS TypeError raised by `C`/`Q` on an empty current ring. -/
def pstep (samples : ℕ) (t : String) (rest : List String) (st : PState) :
    Option (List String × PState) :=
  let cmd := t.toUpper
  if cmd = "M" then
    let polys := if 2 ≤ st.current.length then st.polys ++ [(st.current, false)] else st.polys
    let v := nextNum2 rest
    let x := v.1.1
    let y := v.1.2
    some (v.2, ⟨polys, [(x, y)], x, y, x, y⟩)
  else if cmd = "L" then
    let v := nextNum2 rest
    let x := v.1.1
    let y := v.1.2
    some (v.2, { st with current := st.current ++ [(x, y)], x := x, y := y })
  else if cmd = "C" then
    let v := nextNum6 rest
    match st.current.getLast? with
    | none => none
    | some p =>
      let x1 := v.1.1
      let y1 := v.1.2.1
      let x2 := v.1.2.2.1
      let y2 := v.1.2.2.2.1
      let x := v.1.2.2.2.2.1
      let y := v.1.2.2.2.2.2
      let pts := sampleCubic p.1 p.2 x1 y1 x2 y2 x y (max 2 (samples / 10))
      some (v.2, { st with current := st.current ++ pts.drop 1, x := x, y := y })
  else if cmd = "Q" then
    let v := nextNum4 rest
    match st.current.getLast? with
    | none => none
    | some p =>
      let x1 := v.1.1
      let y1 := v.1.2.1
      let x := v.1.2.2.1
      let y := v.1.2.2.2
      let pts := sampleQuad p.1 p.2 x1 y1 x y (max 2 (samples / 15))
      some (v.2, { st with current := st.current ++ pts.drop 1, x := x, y := y })
  else if cmd = "Z" then
    if 2 ≤ st.current.length then
      some (rest,
        { st with polys := st.polys ++ [(st.current ++ [(st.sx, st.sy)], true)], current := [] })
    else some (rest, { st with current := [] })
  else
    some (rest, st)

lemma pstep_len (samples : ℕ) (t : String) (rest : List String) (st : PState)
    (r' : List String) (st' : PState) (h : pstep samples t rest st = some (r', st')) :
    r'.length ≤ rest.length := by
  have h2 := nextNum2_len rest
  have h4 := nextNum4_len rest
  have h6 := nextNum6_len rest
  by_cases hM : t.toUpper = "M"
  · simp [pstep, hM] at h
    obtain ⟨h1, -⟩ := h
    subst h1; omega
  by_cases hL : t.toUpper = "L"
  · simp [pstep, hM, hL] at h
    obtain ⟨h1, -⟩ := h
    subst h1; omega
  by_cases hC : t.toUpper = "C"
  · rcases hgl : st.current.getLast? with _ | p <;> simp [pstep, hM, hL, hC, hgl] at h
    obtain ⟨h1, -⟩ := h
    subst h1; omega
  by_cases hQ : t.toUpper = "Q"
  · rcases hgl : st.current.getLast? with _ | p <;> simp [pstep, hM, hL, hC, hQ, hgl] at h
    obtain ⟨h1, -⟩ := h
    subst h1; omega
  by_cases hZ : t.toUpper = "Z"
  · simp [pstep, hM, hL, hC, hQ, hZ] at h
    split_ifs at h <;>
      (simp only [Option.some.injEq, Prod.mk.injEq] at h; obtain ⟨h1, -⟩ := h; subst h1; omega)
  · simp [pstep, hM, hL, hC, hQ, hZ] at h
    obtain ⟨h1, -⟩ := h
    subst h1; omega

/-- The main token loop of `pathDToPolygons`, structural on fuel (each step
consumes at least the command token, so `toks.length` fuel suffices; see
`pstep_len`). -/
def parseLoopF (samples : ℕ) : ℕ → List String → PState → Option PState
  | _, [], st => some st
  | 0, _ :: _, _ => none
  | fuel + 1, t :: rest, st =>
    match pstep samples t rest st with
    | none => none
    | some (r', st') => parseLoopF samples fuel r' st'

/-- The main token loop with sufficient fuel. -/
def parseLoop (samples : ℕ) (toks : List String) (st : PState) : Option PState :=
  parseLoopF samples toks.length toks st

/-- After the loop an unterminated trailing ring with at least 2 points is
still emitted. -/
def parseFinish (st : PState) : List (Polygon × Bool) :=
  st.polys ++ (if 2 ≤ st.current.length then [(st.current, false)] else [])

/-- Tagged variant of `pathDToPolygons` (the Bool marks Z-closed rings). -/
def pathDToPolygonsT (pathD : String) (samples : ℕ) : Option (List (Polygon × Bool)) :=
  (parseLoop samples (tokenize pathD) initPState).map parseFinish

/-- `pathDToPolygons(pathD, samples)`; `none` models the JS TypeError thrown
when a `C`/`Q` command arrives while the current ring is empty. -/
def pathDToPolygons (pathD : String) (samples : ℕ) : Option (List Polygon) :=
  (pathDToPolygonsT pathD samples).map (List.map Prod.fst)

/-- Re-emit polygons as `M`/`L`/`Z` path text (`polygonsToPathD`). -/
def polyToParts : Polygon → List String
  | [] => []
  | p :: rest =>
    if (p :: rest).length < 2 then []
    else
      (("M ") ++ ratToStr p.1 ++ (" ") ++ ratToStr p.2) ::
        (rest.map (fun q => ("L ") ++ ratToStr q.1 ++ (" ") ++ ratToStr q.2) ++ [("Z")])

/-- `polygonsToPathD(polys)`. -/
def polygonsToPathD (polys : List Polygon) : String :=
  String.intercalate (" ") (polys.map polyToParts).flatten

/-! ### Metrics (src/src/wordmarkCustomizer/metrics.ts) -/

/-- Shoelace area of one ring (`polygonArea`), with the cyclic `(i+1) % n`
successor expressed by `List.rotate`. -/
def polygonArea (poly : Polygon) : ℚ :=
  |(poly.zip (poly.rotate 1)).foldl
      (fun acc pq => acc + (pq.1.1 * pq.2.2 - pq.2.1 * pq.1.2)) 0| / 2

/-- Total area of all rings of a path sampled at 60 (`pathArea`).  The same
expression is inlined in `customizeWordmark` for `originalArea`. -/
def pathArea (pathD : String) : Option ℚ :=
  (pathDToPolygons pathD 60).map (fun polys => polys.foldl (fun acc p => acc + polygonArea p) 0)

/-- The customizer metrics record. -/
structure WordmarkMetrics where
  device_visibility : ℚ
  silhouette_delta : ℚ
  default_font_risk : ℚ
  legibility : ℚ
deriving Repr, DecidableEq

/-- `computeMetrics(originalPathD, modifiedPathD, originalArea?)`.  When a
precomputed `originalArea` is supplied the original path is not parsed
(JS `??` short-circuit). -/
def computeMetrics (originalPathD modifiedPathD : String) (originalArea : Option ℚ) :
    Option WordmarkMetrics := do
  let areaOrig ← match originalArea with
    | some a => some a
    | none => pathArea originalPathD
  let areaMod ← pathArea modifiedPathD
  let areaDelta := areaOrig - areaMod
  let areaDeltaFrac := if 0 < areaOrig then |areaDelta| / areaOrig else 0
  let leg1 : ℚ :=
    if 0 < areaDelta ∧ 0 < areaOrig ∧ (35 : ℚ) / 100 < areaDelta / areaOrig then
      max 0 (100 - areaDelta / areaOrig * 150)
    else 100
  pure
    { device_visibility := min 100 (max 0 (areaDeltaFrac * 100))
      silhouette_delta := if (2 : ℚ) / 100 ≤ areaDeltaFrac then 100 else 0
      default_font_risk := min 100 (max 0 ((1 - areaDeltaFrac) * 100))
      legibility := min 100 (max 0 leg1) }

/-! ### The clipper-lib kernel abstraction (geometry.ts `union`/`subtract`)

`ClipperLib.Clipper.Execute` is an external dependency; it is abstracted as
a function parameter `ClipExec` over the scaled integer paths the source
hands to it (`none` models a JS exception / `Execute` failure).  Theorems
about the customizer quantify over every such kernel. -/

/-- Scaled integer point (`IntPoint`). -/
abbrev IntPt := ℤ × ℤ

/-- Clip operation selector. -/
inductive ClipType where
  | ctUnion
  | ctDifference
deriving DecidableEq, Repr

/-- Abstracted clipper kernel. -/
abbrev ClipExec := ClipType → List (List IntPt) → List (List IntPt) → Option (List (List IntPt))

/-- `SCALE = 1e5`. -/
def SCALE : ℚ := 100000

/-- `toIntPath`: scale and `Math.round` each coordinate. -/
def toIntPath (poly : Polygon) : List IntPt :=
  poly.map (fun p => (jsRound (p.1 * SCALE), jsRound (p.2 * SCALE)))

/-- `fromIntPath`. -/
def fromIntPath (pts : List IntPt) : Polygon :=
  pts.map (fun p => ((p.1 : ℚ) / SCALE, (p.2 : ℚ) / SCALE))

/-- Common body of `union` and `subtract`: convert both operands, drop
degenerate rings (fewer than 3 points), run the kernel, re-emit a path. -/
def clipShapes (E : ClipExec) (ct : ClipType) (pathD shapePathD : String) : Option String := do
  let subjPolys ← pathDToPolygons pathD 120
  let clipPolys ← pathDToPolygons shapePathD 120
  let subj := (subjPolys.map toIntPath).filter (fun pg => 3 ≤ pg.length)
  let clip := (clipPolys.map toIntPath).filter (fun pg => 3 ≤ pg.length)
  let sol ← E ct subj clip
  pure (polygonsToPathD (sol.map fromIntPath))

/-- `union(pathD, shapePathD)`. -/
def pathUnion (E : ClipExec) (pathD shapePathD : String) : Option String :=
  clipShapes E ClipType.ctUnion pathD shapePathD

/-- `subtract(pathD, shapePathD)`. -/
def pathSubtract (E : ClipExec) (pathD shapePathD : String) : Option String :=
  clipShapes E ClipType.ctDifference pathD shapePathD

/-! ### Shape generators (src/src/wordmarkCustomizer/shapes.ts)

`diagonalBandPath` calls `Math.cos`, `Math.sin` and `Math.PI`; those runtime
transcendentals are abstracted as a `JsMath` parameter. -/

/-- Abstraction of the JS `Math` transcendentals used by the sources. -/
structure JsMath where
  pi : ℚ
  cos : ℚ → ℚ
  sin : ℚ → ℚ

/-- Notch side. -/
inductive NotchSide where
  | inner
  | outer
  | top
  | bottom
deriving DecidableEq, Repr

/-- `rectPath(x, y, w, h)`. -/
def rectPath (x y w h : ℚ) : String :=
  ("M ") ++ ratToStr x ++ (" ") ++ ratToStr y ++
  (" L ") ++ ratToStr (x + w) ++ (" ") ++ ratToStr y ++
  (" L ") ++ ratToStr (x + w) ++ (" ") ++ ratToStr (y + h) ++
  (" L ") ++ ratToStr x ++ (" ") ++ ratToStr (y + h) ++ (" Z")

/-- `wedgePath(x, y, w, h, side)`. -/
def wedgePath (x y w h : ℚ) (side : NotchSide) : String :=
  let cx := x + w / 2
  let cy := y + h / 2
  match side with
  | .top =>
    ("M ") ++ ratToStr x ++ (" ") ++ ratToStr (y + h) ++ (" L ") ++ ratToStr (x + w) ++ (" ") ++
      ratToStr (y + h) ++ (" L ") ++ ratToStr cx ++ (" ") ++ ratToStr y ++ (" Z")
  | .bottom =>
    ("M ") ++ ratToStr x ++ (" ") ++ ratToStr y ++ (" L ") ++ ratToStr cx ++ (" ") ++
      ratToStr (y + h) ++ (" L ") ++ ratToStr (x + w) ++ (" ") ++ ratToStr y ++ (" Z")
  | .inner =>
    ("M ") ++ ratToStr (x + w) ++ (" ") ++ ratToStr y ++ (" L ") ++ ratToStr (x + w) ++ (" ") ++
      ratToStr (y + h) ++ (" L ") ++ ratToStr x ++ (" ") ++ ratToStr cy ++ (" Z")
  | .outer =>
    ("M ") ++ ratToStr x ++ (" ") ++ ratToStr y ++ (" L ") ++ ratToStr x ++ (" ") ++
      ratToStr (y + h) ++ (" L ") ++ ratToStr (x + w) ++ (" ") ++ ratToStr cy ++ (" Z")

/-- Glyph bounding box. -/
structure BBox where
  x : ℚ
  y : ℚ
  w : ℚ
  h : ℚ
deriving DecidableEq, Repr

/-- `diagonalBandPath(bbox, angle_deg, thickness, offset)`. -/
def diagonalBandPath (M : JsMath) (bbox : BBox) (angle_deg thickness offset : ℚ) : String :=
  let rad := angle_deg * M.pi / 180
  let dx := M.cos rad * (bbox.w + bbox.h)
  let dy := M.sin rad * (bbox.w + bbox.h)
  let px := bbox.x + offset
  let py := bbox.y + offset
  let perpX := -(M.sin rad) * thickness
  let perpY := M.cos rad * thickness
  ("M ") ++ ratToStr px ++ (" ") ++ ratToStr py ++
  (" L ") ++ ratToStr (px + dx) ++ (" ") ++ ratToStr (py + dy) ++
  (" L ") ++ ratToStr (px + dx + perpX) ++ (" ") ++ ratToStr (py + dy + perpY) ++
  (" L ") ++ ratToStr (px + perpX) ++ (" ") ++ ratToStr (py + perpY) ++ (" Z")

namespace Shapes

/-- `roundedRectPath(x, y, w, h, r)` for ligature bridges (shapes.ts). -/
def roundedRectPath (x y w h r : ℚ) : String :=
  if r ≤ 0 ∨ w / 2 ≤ r ∨ h / 2 ≤ r then rectPath x y w h
  else
    ("M ") ++ ratToStr (x + r) ++ (" ") ++ ratToStr y ++
    (" L ") ++ ratToStr (x + w - r) ++ (" ") ++ ratToStr y ++
    (" Q ") ++ ratToStr (x + w) ++ (" ") ++ ratToStr y ++ (" ") ++ ratToStr (x + w) ++ (" ") ++
      ratToStr (y + r) ++
    (" L ") ++ ratToStr (x + w) ++ (" ") ++ ratToStr (y + h - r) ++
    (" Q ") ++ ratToStr (x + w) ++ (" ") ++ ratToStr (y + h) ++ (" ") ++ ratToStr (x + w - r) ++
      (" ") ++ ratToStr (y + h) ++
    (" L ") ++ ratToStr (x + r) ++ (" ") ++ ratToStr (y + h) ++
    (" Q ") ++ ratToStr x ++ (" ") ++ ratToStr (y + h) ++ (" ") ++ ratToStr x ++ (" ") ++
      ratToStr (y + h - r) ++
    (" L ") ++ ratToStr x ++ (" ") ++ ratToStr (y + r) ++
    (" Q ") ++ ratToStr x ++ (" ") ++ ratToStr y ++ (" ") ++ ratToStr (x + r) ++ (" ") ++
      ratToStr y ++ (" Z")

end Shapes

/-! ### Device appliers (src/src/wordmarkCustomizer/devices.ts) -/

/-- One glyph run. -/
structure GlyphRun where
  index : ℕ
  char : String
  path_d : String
  bbox : BBox
  advance : ℚ
deriving DecidableEq, Repr

/-- Placeholder glyph for (never reached) out-of-range indexing. -/
def gdefault : GlyphRun := ⟨0, (""), (""), ⟨0, 0, 0, 0⟩, 0⟩

/-- `applyNotchCut(glyph, {side, depth, width})`. -/
def applyNotchCut (E : ClipExec) (glyph : GlyphRun) (side : NotchSide) (depth width : ℚ) :
    Option String :=
  let h := max (glyph.bbox.h * depth) (1 / 2)
  let w := max (glyph.bbox.w * width) (1 / 2)
  let xy : ℚ × ℚ :=
    match side with
    | .top => (glyph.bbox.x + (glyph.bbox.w - w) / 2, glyph.bbox.y)
    | .bottom => (glyph.bbox.x + (glyph.bbox.w - w) / 2, glyph.bbox.y + glyph.bbox.h - h)
    | .inner => (glyph.bbox.x + glyph.bbox.w - w, glyph.bbox.y + (glyph.bbox.h - h) / 2)
    | .outer => (glyph.bbox.x, glyph.bbox.y + (glyph.bbox.h - h) / 2)
  pathSubtract E glyph.path_d (wedgePath xy.1 xy.2 w h side)

/-- `applySeamCut(glyph, {angle_deg, thickness, offset})`. -/
def applySeamCut (M : JsMath) (E : ClipExec) (glyph : GlyphRun)
    (angle_deg thickness offset : ℚ) : Option String :=
  pathSubtract E glyph.path_d
    (diagonalBandPath M glyph.bbox angle_deg (glyph.bbox.h * thickness) offset)

/-- Vertical placement of a ligature bridge. -/
inductive YPos where
  | baseline
  | xheight
  | cap
deriving DecidableEq, Repr

/-- `applyLigatureBridge(glyphA, glyphB, {thickness, y_pos})`. -/
def applyLigatureBridge (E : ClipExec) (gA gB : GlyphRun) (thickness : ℚ) (y_pos : YPos) :
    Option String := do
  let b1 := gA.bbox
  let b2 := gB.bbox
  let gap := b2.x - (b1.x + b1.w)
  let th := max ((b1.h + b2.h) / 2 * thickness) 1
  let midH := (b1.y + b1.h / 2 + b2.y + b2.h / 2) / 2
  let y : ℚ :=
    match y_pos with
    | .baseline => midH - th / 2
    | .cap => min b1.y b2.y
    | .xheight => min (b1.y + b1.h * (7 / 10)) (b2.y + b2.h * (7 / 10)) - th / 2
  let x := b1.x + b1.w
  let w := max gap (1 / 2)
  let bridgePath := Shapes.roundedRectPath x y w th (th / 4)
  let combined ← pathUnion E gA.path_d bridgePath
  pathUnion E combined gB.path_d

/-! ### Customizer data model (src/src/wordmarkCustomizer/types.ts) -/

/-- Tagged union of devices (`DeviceSpec`); `lfrom`/`lto` stand for the JS
fields `from`/`to` (reserved words in Lean). -/
inductive DeviceSpec where
  | notch_cut (letter : String) (side : NotchSide) (depth width : ℚ)
  | seam_cut (letter : String) (angle_deg thickness offset : ℚ)
  | ligature_bridge (lfrom lto : String) (thickness : ℚ) (y_pos : YPos)
deriving DecidableEq, Repr

/-- Boldness parameters. -/
structure Boldness where
  compression : ℚ
  weight_bias : ℚ
deriving DecidableEq, Repr

/-- Optical parameters. -/
structure Optical where
  overshoot : ℚ
deriving DecidableEq, Repr

/-- A customization plan. -/
structure WordmarkCustomizationPlan where
  target_letters : List String
  devices : List DeviceSpec
  boldness : Boldness
  optical : Optical
  reject_if : List String
deriving DecidableEq, Repr

/-- A rendered wordmark snapshot. -/
structure WordmarkBase where
  path_d : String
  viewBox : String
  width : ℚ
  height : ℚ
  glyphs : List GlyphRun
deriving DecidableEq, Repr

/-- Input of `customizeWordmark`. -/
structure WordmarkCustomizeInput where
  base : WordmarkBase
  plan : WordmarkCustomizationPlan
  seed : String
deriving DecidableEq, Repr

/-- One manifest entry. -/
structure DeviceManifestItem where
  device : String
  target : String
  applied : Bool
deriving DecidableEq, Repr

/-- Output of `customizeWordmark`.  The `wordmark_svg` serialization string
is omitted from the embedding: SVG document assembly is out of scope (spec
section 6) and no claim concerns it. -/
structure WordmarkCustomizeOutput where
  wordmark_path_d : String
  manifest : List DeviceManifestItem
  metrics : WordmarkMetrics
deriving DecidableEq, Repr

/-! ### customizeWordmark (src/src/wordmarkCustomizer/customize.ts) -/

/-- Lower-case the letter fields of one device (part of `normalizePlan`). -/
def normalizeDevice : DeviceSpec → DeviceSpec
  | .notch_cut l s d w => .notch_cut l.toLower s d w
  | .seam_cut l a t o => .seam_cut l.toLower a t o
  | .ligature_bridge f t th y => .ligature_bridge f.toLower t.toLower th y

/-- `normalizePlan(plan)`. -/
def normalizePlan (plan : WordmarkCustomizationPlan) : WordmarkCustomizationPlan :=
  { plan with
    target_letters := plan.target_letters.map String.toLower
    devices := plan.devices.map normalizeDevice }

/-- `scalePathX(pathD, scaleX, cx)`: polygon round-trip horizontal scale. -/
def scalePathX (pathD : String) (scaleX cx : ℚ) : Option String :=
  (pathDToPolygons pathD 80).map (fun polys =>
    polygonsToPathD (polys.map (fun poly => poly.map (fun p => ((p.1 - cx) * scaleX + cx, p.2)))))

/-- Whitespace for the JS split regex. -/
def isWsChar (c : Char) : Bool := c = ' ' ∨ c = '\t' ∨ c = '\n' ∨ c = '\r'

/-- JS `s.split(/\s+/)`: split on maximal whitespace runs, keeping empty
leading/trailing fields (fuel-structural; `l.length` fuel suffices). -/
def splitWsAuxF : ℕ → List Char → List Char → List String
  | _, [], cur => [String.mk cur.reverse]
  | 0, _ :: _, cur => [String.mk cur.reverse]
  | fuel + 1, c :: r, cur =>
    if isWsChar c then String.mk cur.reverse :: splitWsAuxF fuel (r.dropWhile isWsChar) []
    else splitWsAuxF fuel r (c :: cur)

/-- JS `viewBox.split(/\s+/)`. -/
def splitWs (s : String) : List String := splitWsAuxF s.toList.length s.toList []

/-- The horizontal center used by compression (`cx`, customize.ts lines
72-73).  `parseFloat` of a missing/garbage part is NaN in JS; NaN
propagation is not modelled (coerced to 0) — no claim depends on `cx`. -/
def wordmarkCx (base : WordmarkBase) : ℚ :=
  let vbParts := splitWs base.viewBox
  if 1 ≤ vbParts.length then
    (jsParseFloat (vbParts.getD 0 ("undefined"))).getD 0 +
      (jsParseFloat (vbParts.getD 2 ("undefined"))).getD 0 / 2
  else base.width / 2

/-- `findGlyphIndex` scan with explicit index counter. -/
def findGlyphIndexAux (l : String) (used : List ℕ) : List GlyphRun → ℕ → Option ℕ
  | [], _ => none
  | g :: gs, i =>
    if g.char.toLower = l ∧ ¬ i ∈ used then some i else findGlyphIndexAux l used gs (i + 1)

/-- `findGlyphIndex(glyphs, letter, used)`: first glyph whose character
matches `letter` case-insensitively and whose index is unused (`-1` is
modelled as `none`). -/
def findGlyphIndex (glyphs : List GlyphRun) (letter : String) (used : List ℕ) : Option ℕ :=
  findGlyphIndexAux letter.toLower used glyphs 0

/-- The first device loop of `customizeWordmark` (lines 84-130): applies the
devices in plan order against a mutable used-index set, recording a
manifest entry per device; applier exceptions are caught per device. -/
def runDevices (M : JsMath) (E : ClipExec) :
    List DeviceSpec → List GlyphRun → List ℕ → List DeviceManifestItem →
    List GlyphRun × List ℕ × List DeviceManifestItem
  | [], glyphs, used, manifest => (glyphs, used, manifest)
  | dev :: devs, glyphs, used, manifest =>
    match dev with
    | .notch_cut letter side depth width =>
      match findGlyphIndex glyphs letter used with
      | some idx =>
        match applyNotchCut E (glyphs.getD idx gdefault) side depth width with
        | some newPath =>
          runDevices M E devs (glyphs.set idx { glyphs.getD idx gdefault with path_d := newPath })
            (idx :: used) (manifest ++ [⟨("notch_cut"), letter, true⟩])
        | none => runDevices M E devs glyphs used (manifest ++ [⟨("notch_cut"), letter, false⟩])
      | none => runDevices M E devs glyphs used (manifest ++ [⟨("notch_cut"), letter, false⟩])
    | .seam_cut letter angle_deg thickness offset =>
      match findGlyphIndex glyphs letter used with
      | some idx =>
        match applySeamCut M E (glyphs.getD idx gdefault) angle_deg thickness offset with
        | some newPath =>
          runDevices M E devs (glyphs.set idx { glyphs.getD idx gdefault with path_d := newPath })
            (idx :: used) (manifest ++ [⟨("seam_cut"), letter, true⟩])
        | none => runDevices M E devs glyphs used (manifest ++ [⟨("seam_cut"), letter, false⟩])
      | none => runDevices M E devs glyphs used (manifest ++ [⟨("seam_cut"), letter, false⟩])
    | .ligature_bridge lfrom lto thickness y_pos =>
      match findGlyphIndex glyphs lfrom used, findGlyphIndex glyphs lto used with
      | some ia, some ib =>
        if ia ≠ ib then
          match applyLigatureBridge E (glyphs.getD ia gdefault) (glyphs.getD ib gdefault)
              thickness y_pos with
          | some combined =>
            runDevices M E devs
              ((glyphs.set ia { glyphs.getD ia gdefault with path_d := combined }).set ib
                { glyphs.getD ib gdefault with path_d := ("") })
              (ib :: ia :: used)
              (manifest ++ [⟨("ligature_bridge"), lfrom ++ ("-") ++ lto, true⟩])
          | none =>
            runDevices M E devs glyphs used
              (manifest ++ [⟨("ligature_bridge"), lfrom ++ ("-") ++ lto, false⟩])
        else
          runDevices M E devs glyphs used
            (manifest ++ [⟨("ligature_bridge"), lfrom ++ ("-") ++ lto, false⟩])
      | _, _ =>
        runDevices M E devs glyphs used
          (manifest ++ [⟨("ligature_bridge"), lfrom ++ ("-") ++ lto, false⟩])

/-- The retry device loop of `customizeWordmark` (lines 159-189): a literal
copy of the first loop in the source, except that no manifest is recorded
(empty `catch {}` blocks). -/
def runDevices2 (M : JsMath) (E : ClipExec) :
    List DeviceSpec → List GlyphRun → List ℕ → List GlyphRun × List ℕ
  | [], glyphs, used => (glyphs, used)
  | dev :: devs, glyphs, used =>
    match dev with
    | .notch_cut letter side depth width =>
      match findGlyphIndex glyphs letter used with
      | some idx =>
        match applyNotchCut E (glyphs.getD idx gdefault) side depth width with
        | some newPath =>
          runDevices2 M E devs (glyphs.set idx { glyphs.getD idx gdefault with path_d := newPath })
            (idx :: used)
        | none => runDevices2 M E devs glyphs used
      | none => runDevices2 M E devs glyphs used
    | .seam_cut letter angle_deg thickness offset =>
      match findGlyphIndex glyphs letter used with
      | some idx =>
        match applySeamCut M E (glyphs.getD idx gdefault) angle_deg thickness offset with
        | some newPath =>
          runDevices2 M E devs (glyphs.set idx { glyphs.getD idx gdefault with path_d := newPath })
            (idx :: used)
        | none => runDevices2 M E devs glyphs used
      | none => runDevices2 M E devs glyphs used
    | .ligature_bridge lfrom lto thickness y_pos =>
      match findGlyphIndex glyphs lfrom used, findGlyphIndex glyphs lto used with
      | some ia, some ib =>
        if ia ≠ ib then
          match applyLigatureBridge E (glyphs.getD ia gdefault) (glyphs.getD ib gdefault)
              thickness y_pos with
          | some combined =>
            runDevices2 M E devs
              ((glyphs.set ia { glyphs.getD ia gdefault with path_d := combined }).set ib
                { glyphs.getD ib gdefault with path_d := ("") })
              (ib :: ia :: used)
          | none => runDevices2 M E devs glyphs used
        else runDevices2 M E devs glyphs used
      | _, _ => runDevices2 M E devs glyphs used

/-- Instrumented first loop: additionally returns, per device, its manifest
entry together with the list of glyph indices it consumed (empty when the
device did not apply). -/
def runDevicesT (M : JsMath) (E : ClipExec) :
    List DeviceSpec → List GlyphRun → List ℕ →
    List GlyphRun × List ℕ × List (DeviceManifestItem × List ℕ)
  | [], glyphs, used => (glyphs, used, [])
  | dev :: devs, glyphs, used =>
    match dev with
    | .notch_cut letter side depth width =>
      match findGlyphIndex glyphs letter used with
      | some idx =>
        match applyNotchCut E (glyphs.getD idx gdefault) side depth width with
        | some newPath =>
          let r := runDevicesT M E devs
            (glyphs.set idx { glyphs.getD idx gdefault with path_d := newPath }) (idx :: used)
          (r.1, r.2.1, (⟨("notch_cut"), letter, true⟩, [idx]) :: r.2.2)
        | none =>
          let r := runDevicesT M E devs glyphs used
          (r.1, r.2.1, (⟨("notch_cut"), letter, false⟩, []) :: r.2.2)
      | none =>
        let r := runDevicesT M E devs glyphs used
        (r.1, r.2.1, (⟨("notch_cut"), letter, false⟩, []) :: r.2.2)
    | .seam_cut letter angle_deg thickness offset =>
      match findGlyphIndex glyphs letter used with
      | some idx =>
        match applySeamCut M E (glyphs.getD idx gdefault) angle_deg thickness offset with
        | some newPath =>
          let r := runDevicesT M E devs
            (glyphs.set idx { glyphs.getD idx gdefault with path_d := newPath }) (idx :: used)
          (r.1, r.2.1, (⟨("seam_cut"), letter, true⟩, [idx]) :: r.2.2)
        | none =>
          let r := runDevicesT M E devs glyphs used
          (r.1, r.2.1, (⟨("seam_cut"), letter, false⟩, []) :: r.2.2)
      | none =>
        let r := runDevicesT M E devs glyphs used
        (r.1, r.2.1, (⟨("seam_cut"), letter, false⟩, []) :: r.2.2)
    | .ligature_bridge lfrom lto thickness y_pos =>
      match findGlyphIndex glyphs lfrom used, findGlyphIndex glyphs lto used with
      | some ia, some ib =>
        if ia ≠ ib then
          match applyLigatureBridge E (glyphs.getD ia gdefault) (glyphs.getD ib gdefault)
              thickness y_pos with
          | some combined =>
            let r := runDevicesT M E devs
              ((glyphs.set ia { glyphs.getD ia gdefault with path_d := combined }).set ib
                { glyphs.getD ib gdefault with path_d := ("") })
              (ib :: ia :: used)
            (r.1, r.2.1, (⟨("ligature_bridge"), lfrom ++ ("-") ++ lto, true⟩, [ia, ib]) :: r.2.2)
          | none =>
            let r := runDevicesT M E devs glyphs used
            (r.1, r.2.1, (⟨("ligature_bridge"), lfrom ++ ("-") ++ lto, false⟩, []) :: r.2.2)
        else
          let r := runDevicesT M E devs glyphs used
          (r.1, r.2.1, (⟨("ligature_bridge"), lfrom ++ ("-") ++ lto, false⟩, []) :: r.2.2)
      | _, _ =>
        let r := runDevicesT M E devs glyphs used
        (r.1, r.2.1, (⟨("ligature_bridge"), lfrom ++ ("-") ++ lto, false⟩, []) :: r.2.2)

/-- Copy the base glyphs and apply compression about `cx` when it is not 1
(customize.ts lines 70-79, repeated verbatim at lines 152-157). -/
def prepGlyphs (base : WordmarkBase) (compression : ℚ) : Option (List GlyphRun) :=
  if compression ≠ 1 then
    base.glyphs.mapM (fun g =>
      (scalePathX g.path_d compression (wordmarkCx base)).map (fun p => { g with path_d := p }))
  else some base.glyphs

/-- `glyphs.map(g => g.path_d).filter(Boolean).join(" ")`. -/
def joinPaths (glyphs : List GlyphRun) : String :=
  String.intercalate (" ") ((glyphs.map (fun g => g.path_d)).filter (fun s => s ≠ ("")))

/-- Scale a device's magnitudes for the retry (customize.ts lines 146-151):
notch depth/width ×1.2, seam thickness ×1.2, ligature thickness ×1.15. -/
def intensifyDevice : DeviceSpec → DeviceSpec
  | .notch_cut l s d w => .notch_cut l s (d * (12 / 10)) (w * (12 / 10))
  | .seam_cut l a t o => .seam_cut l a (t * (12 / 10)) o
  | .ligature_bridge f t th y => .ligature_bridge f t (th * (115 / 100)) y

/-- `customizeWordmark(input)`.  `none` models an uncaught JS exception
(a parse crash outside the per-device try/catch blocks). -/
def customizeWordmark (M : JsMath) (E : ClipExec) (input : WordmarkCustomizeInput) :
    Option WordmarkCustomizeOutput := do
  let planNorm := normalizePlan input.plan
  let base := input.base
  let glyphs0 ← prepGlyphs base planNorm.boldness.compression
  let r1 := runDevices M E planNorm.devices glyphs0 [] []
  let combinedPathD := joinPaths r1.1
  let originalArea ← pathArea base.path_d
  let metrics ← computeMetrics base.path_d
    (if combinedPathD = ("") then base.path_d else combinedPathD) (some originalArea)
  if metrics.device_visibility < 6 ∨ 95 < metrics.default_font_risk then
    let intensified := planNorm.devices.map intensifyDevice
    let glyphs2 ← prepGlyphs base planNorm.boldness.compression
    let r2 := runDevices2 M E intensified glyphs2 []
    let combined2 := joinPaths r2.1
    if combined2 ≠ ("") then
      let metrics2 ← computeMetrics base.path_d combined2 (some originalArea)
      pure ⟨combined2, r1.2.2, metrics2⟩
    else
      pure ⟨(if combinedPathD = ("") then base.path_d else combinedPathD), r1.2.2, metrics⟩
  else
    pure ⟨(if combinedPathD = ("") then base.path_d else combinedPathD), r1.2.2, metrics⟩

/-- The no-retry portion of `customizeWordmark` (derived definition used to
state the retry-policy theorem). -/
def firstPass (M : JsMath) (E : ClipExec) (input : WordmarkCustomizeInput) :
    Option WordmarkCustomizeOutput := do
  let planNorm := normalizePlan input.plan
  let glyphs0 ← prepGlyphs input.base planNorm.boldness.compression
  let r1 := runDevices M E planNorm.devices glyphs0 [] []
  let combinedPathD := joinPaths r1.1
  let originalArea ← pathArea input.base.path_d
  let metrics ← computeMetrics input.base.path_d
    (if combinedPathD = ("") then input.base.path_d else combinedPathD) (some originalArea)
  pure ⟨(if combinedPathD = ("") then input.base.path_d else combinedPathD), r1.2.2, metrics⟩

/-- The combined path produced by the intensified retry pass, rebuilt from
the original base glyphs (derived definition used to state the retry-policy
theorem). -/
def intensifiedCombined (M : JsMath) (E : ClipExec) (input : WordmarkCustomizeInput) :
    Option String := do
  let planNorm := normalizePlan input.plan
  let glyphs2 ← prepGlyphs input.base planNorm.boldness.compression
  pure (joinPaths (runDevices M E (planNorm.devices.map intensifyDevice) glyphs2 [] []).1)

/-! ### Motif marks (src/src/tools/motifMark.tool.ts, first revision)

The glyph outline provider `textToPath` does file I/O and is abstracted as
a parameter (`Ttp`; `none` models a thrown provider error). -/

/-- UTF-16 code units of a string as seen by `charCodeAt` (accurate for the
Basic Multilingual Plane; no claim involves surrogate pairs). -/
def charCodes (s : String) : List ℕ := s.toList.map Char.toNat

/-- One step of `hashSeed`: `h = (h << 5) - h + c; h |= 0` (the shift itself
wraps to 32 bits in JS, the sum is exact in doubles, then `|= 0` wraps). -/
def hashStep (h : ℤ) (c : ℕ) : ℤ := toInt32 (toInt32 (h * 32) - h + (c : ℤ))

/-- `hashSeed(seed)`: 32-bit rolling hash followed by `Math.abs`. -/
def hashSeed (seed : String) : ℕ := ((charCodes seed).foldl hashStep 0).natAbs

/-- The hash exactly as the spec words it (claim C5): the 32-bit signed
rolling hash `h = h*31 + charCode` wrapped to 32 bits — with no absolute
value.  Stated for comparison against `hashSeed`. -/
def specRollingHash (seed : String) : ℤ :=
  (charCodes seed).foldl (fun h c => toInt32 (h * 31 + (c : ℤ))) 0

/-- Variation selection of `buildMarkPath` (line 371):
`variant !== undefined ? variant : seedNum % 6`. -/
def markVariation (variant : Option ℚ) (seed : String) : ℚ :=
  match variant with
  | some v => v
  | none => ((hashSeed seed % 6 : ℕ) : ℚ)

/-- Motif family enum (`monogram_interlock` stands for
"monogram-interlock"). -/
inductive MotifFamily where
  | loop
  | interlock
  | orbit
  | fold
  | swap
  | monogram_interlock
deriving DecidableEq, Repr

/-- Parsed input of the motif tool. -/
structure MotifMarkInput where
  brand_name : String
  motif_family : MotifFamily
  seed : String
  grid : ℚ
  stroke_px : ℚ
  corner_radius_px : ℚ
  primary_hex : String
  variant : Option ℚ
  use_fill : Option Bool
deriving Repr

namespace Motif

/-- `roundedRectPath(x, y, w, h, r)` of motifMark.tool.ts (clamps `r`
instead of falling back to a rectangle for large radii). -/
def roundedRectPath (x y w h r : ℚ) : String :=
  if r ≤ 0 then rectPath x y w h
  else
    let r2 := min r (min (w / 2) (h / 2))
    ("M ") ++ ratToStr (x + r2) ++ (" ") ++ ratToStr y ++
    (" L ") ++ ratToStr (x + w - r2) ++ (" ") ++ ratToStr y ++
    (" Q ") ++ ratToStr (x + w) ++ (" ") ++ ratToStr y ++ (" ") ++ ratToStr (x + w) ++ (" ") ++
      ratToStr (y + r2) ++
    (" L ") ++ ratToStr (x + w) ++ (" ") ++ ratToStr (y + h - r2) ++
    (" Q ") ++ ratToStr (x + w) ++ (" ") ++ ratToStr (y + h) ++ (" ") ++ ratToStr (x + w - r2) ++
      (" ") ++ ratToStr (y + h) ++
    (" L ") ++ ratToStr (x + r2) ++ (" ") ++ ratToStr (y + h) ++
    (" Q ") ++ ratToStr x ++ (" ") ++ ratToStr (y + h) ++ (" ") ++ ratToStr x ++ (" ") ++
      ratToStr (y + h - r2) ++
    (" L ") ++ ratToStr x ++ (" ") ++ ratToStr (y + r2) ++
    (" Q ") ++ ratToStr x ++ (" ") ++ ratToStr y ++ (" ") ++ ratToStr (x + r2) ++ (" ") ++
      ratToStr y ++ (" Z")

end Motif

/-- `createRibbonBand(outerPath, innerPath, gapCut?)`. -/
def createRibbonBand (outerPath innerPath : String) (gapCut : Option String) : String :=
  match gapCut with
  | some g => outerPath ++ (" ") ++ innerPath ++ (" ") ++ g
  | none => outerPath ++ (" ") ++ innerPath

/-- `buildLoop(grid, strokePx, cornerRadiusPx, variation, useFill)`. -/
def buildLoop (grid strokePx cornerRadiusPx variation : ℚ) (useFill : Bool) : String :=
  let c := grid / 2
  let bandWidth := grid * (12 / 100)
  let outerSize := grid * (42 / 100)
  let innerSize := outerSize - bandWidth * 2
  let gapSize := grid * (8 / 100)
  let r := min cornerRadiusPx (outerSize / 4)
  if useFill then
    let outerPath := Motif.roundedRectPath (c - outerSize / 2) (c - outerSize / 2)
      outerSize outerSize r
    let innerPath := Motif.roundedRectPath (c - innerSize / 2) (c - innerSize / 2)
      innerSize innerSize (max 0 (r - bandWidth / 2))
    let gapCut := Motif.roundedRectPath (c + outerSize / 2 - gapSize) (c - gapSize / 2)
      gapSize gapSize 0
    createRibbonBand outerPath innerPath (some gapCut)
  else
    let s := outerSize / 2
    let gapOffset := gapSize / 2
    ("M ") ++ ratToStr (c - s) ++ (" ") ++ ratToStr (c - s + gapOffset) ++
    (" L ") ++ ratToStr (c - s) ++ (" ") ++ ratToStr (c - s) ++
    (" L ") ++ ratToStr (c + s - gapSize) ++ (" ") ++ ratToStr (c - s) ++
    (" L ") ++ ratToStr (c + s) ++ (" ") ++ ratToStr (c - s) ++
    (" L ") ++ ratToStr (c + s) ++ (" ") ++ ratToStr (c + s) ++
    (" L ") ++ ratToStr (c - s) ++ (" ") ++ ratToStr (c + s) ++
    (" L ") ++ ratToStr (c - s) ++ (" ") ++ ratToStr (c - s + gapOffset) ++ (" Z")

/-- `buildInterlock(grid, strokePx, cornerRadiusPx, variation, useFill)`. -/
def buildInterlock (grid strokePx cornerRadiusPx variation : ℚ) (useFill : Bool) : String :=
  let c := grid / 2
  let bandWidth := grid * (10 / 100)
  let size1 := grid * (36 / 100)
  let size2 := grid * (32 / 100)
  let overlap := grid * (8 / 100)
  let r := min cornerRadiusPx (size1 / 4)
  if useFill then
    let outer1X := c - size1 / 2
    let outer1Y := c - size2 / 2 - overlap
    let outer1Path := Motif.roundedRectPath outer1X outer1Y size1 size2 r
    let inner1Path := Motif.roundedRectPath (outer1X + bandWidth) (outer1Y + bandWidth)
      (size1 - bandWidth * 2) (size2 - bandWidth * 2) (max 0 (r - bandWidth / 2))
    let outer2X := c - size2 / 2 - overlap
    let outer2Y := c - size1 / 2
    let outer2Path := Motif.roundedRectPath outer2X outer2Y size2 size1 r
    let inner2Path := Motif.roundedRectPath (outer2X + bandWidth) (outer2Y + bandWidth)
      (size2 - bandWidth * 2) (size1 - bandWidth * 2) (max 0 (r - bandWidth / 2))
    let windowPath := Motif.roundedRectPath (c - overlap / 2) (c - overlap / 2) overlap overlap 0
    outer1Path ++ (" ") ++ inner1Path ++ (" ") ++ outer2Path ++ (" ") ++ inner2Path ++ (" ") ++
      windowPath
  else
    let s1 := size1 / 2
    let s2 := size2 / 2
    Motif.roundedRectPath (c - s1) (c - s2 - overlap) size1 size2 r ++ (" ") ++
      Motif.roundedRectPath (c - s2 - overlap) (c - s1) size2 size1 r

/-- `buildOrbit(grid, strokePx, cornerRadiusPx, variation, useFill)`; the
trigonometric values come from the abstracted `JsMath`. -/
def buildOrbit (M : JsMath) (grid strokePx cornerRadiusPx variation : ℚ) (useFill : Bool) :
    String :=
  let c := grid / 2
  let r1 := grid * (36 / 100)
  let r2 := grid * (24 / 100)
  let gapAngle := M.pi / 3
  if useFill then
    let outer1Start := -(M.pi) / 2 + gapAngle / 2
    let outer1End := M.pi / 2 - gapAngle / 2
    let crescent1 :=
      ("M ") ++ ratToStr (c + r1 * M.cos outer1Start) ++ (" ") ++
        ratToStr (c + r1 * M.sin outer1Start) ++
      (" A ") ++ ratToStr r1 ++ (" ") ++ ratToStr r1 ++ (" 0 0 1 ") ++
        ratToStr (c + r1 * M.cos outer1End) ++ (" ") ++ ratToStr (c + r1 * M.sin outer1End) ++
      (" L ") ++ ratToStr (c + r2 * M.cos outer1End) ++ (" ") ++
        ratToStr (c + r2 * M.sin outer1End) ++
      (" A ") ++ ratToStr r2 ++ (" ") ++ ratToStr r2 ++ (" 0 0 0 ") ++
        ratToStr (c + r2 * M.cos outer1Start) ++ (" ") ++ ratToStr (c + r2 * M.sin outer1Start) ++
      (" Z")
    let outer2Start := M.pi / 2 + gapAngle / 2
    let outer2End := -(M.pi) / 2 - gapAngle / 2
    let crescent2 :=
      ("M ") ++ ratToStr (c + r1 * M.cos outer2Start) ++ (" ") ++
        ratToStr (c + r1 * M.sin outer2Start) ++
      (" A ") ++ ratToStr r1 ++ (" ") ++ ratToStr r1 ++ (" 0 0 1 ") ++
        ratToStr (c + r1 * M.cos outer2End) ++ (" ") ++ ratToStr (c + r1 * M.sin outer2End) ++
      (" L ") ++ ratToStr (c + r2 * M.cos outer2End) ++ (" ") ++
        ratToStr (c + r2 * M.sin outer2End) ++
      (" A ") ++ ratToStr r2 ++ (" ") ++ ratToStr r2 ++ (" 0 0 0 ") ++
        ratToStr (c + r2 * M.cos outer2Start) ++ (" ") ++ ratToStr (c + r2 * M.sin outer2Start) ++
      (" Z")
    crescent1 ++ (" ") ++ crescent2
  else
    ("M ") ++ ratToStr c ++ (" ") ++ ratToStr (c - r1) ++
    (" A ") ++ ratToStr r1 ++ (" ") ++ ratToStr r1 ++ (" 0 0 1 ") ++
      ratToStr (c + r1 * (7 / 10)) ++ (" ") ++ ratToStr c ++
    (" M ") ++ ratToStr c ++ (" ") ++ ratToStr (c + r2) ++
    (" A ") ++ ratToStr r2 ++ (" ") ++ ratToStr r2 ++ (" 0 0 0 ") ++
      ratToStr (c - r2 * (7 / 10)) ++ (" ") ++ ratToStr c

/-- `buildFold(grid, strokePx, cornerRadiusPx, variation, useFill)`. -/
def buildFold (grid strokePx cornerRadiusPx variation : ℚ) (useFill : Bool) : String :=
  let c := grid / 2
  let faceSize := grid * (40 / 100)
  let seamWidth := grid * (4 / 100)
  if useFill then
    let face1 :=
      ("M ") ++ ratToStr (c - faceSize / 2) ++ (" ") ++ ratToStr (c - faceSize / 2) ++
      (" L ") ++ ratToStr c ++ (" ") ++ ratToStr c ++
      (" L ") ++ ratToStr (c - faceSize / 2) ++ (" ") ++ ratToStr (c + faceSize / 2) ++ (" Z")
    let face2 :=
      ("M ") ++ ratToStr (c + faceSize / 2) ++ (" ") ++ ratToStr (c - faceSize / 2) ++
      (" L ") ++ ratToStr c ++ (" ") ++ ratToStr c ++
      (" L ") ++ ratToStr (c + faceSize / 2) ++ (" ") ++ ratToStr (c + faceSize / 2) ++ (" Z")
    let seamPath := Motif.roundedRectPath (c - seamWidth / 2) (c - faceSize / 2)
      seamWidth faceSize 0
    face1 ++ (" ") ++ face2 ++ (" ") ++ seamPath
  else
    let s := faceSize / 2
    ("M ") ++ ratToStr (c - s) ++ (" ") ++ ratToStr (c - s) ++
    (" L ") ++ ratToStr c ++ (" ") ++ ratToStr c ++
    (" L ") ++ ratToStr (c - s) ++ (" ") ++ ratToStr (c + s) ++
    (" M ") ++ ratToStr (c + s) ++ (" ") ++ ratToStr (c - s) ++
    (" L ") ++ ratToStr c ++ (" ") ++ ratToStr c ++
    (" L ") ++ ratToStr (c + s) ++ (" ") ++ ratToStr (c + s) ++
    (" M ") ++ ratToStr (c - seamWidth / 2) ++ (" ") ++ ratToStr (c - s) ++
    (" L ") ++ ratToStr (c - seamWidth / 2) ++ (" ") ++ ratToStr (c + s)

/-- `buildSwap(grid, strokePx, cornerRadiusPx, variation, useFill)`. -/
def buildSwap (grid strokePx cornerRadiusPx variation : ℚ) (useFill : Bool) : String :=
  let c := grid / 2
  let bandWidth := grid * (12 / 100)
  let bandLength := grid * (32 / 100)
  let offset := grid * (15 / 100)
  let r := min cornerRadiusPx (bandWidth / 2)
  if useFill then
    let band1Outer := Motif.roundedRectPath (c - offset - bandLength / 2)
      (c - bandWidth / 2 - offset / 2) bandLength bandWidth r
    let band1Inner := Motif.roundedRectPath (c - offset - bandLength / 2 + bandWidth / 3)
      (c - bandWidth / 2 - offset / 2 + bandWidth / 3) (bandLength - bandWidth * 2 / 3)
      (bandWidth / 3) (max 0 (r - bandWidth / 3))
    let band2Outer := Motif.roundedRectPath (c + offset - bandLength / 2)
      (c - bandWidth / 2 + offset / 2) bandLength bandWidth r
    let band2Inner := Motif.roundedRectPath (c + offset - bandLength / 2 + bandWidth / 3)
      (c - bandWidth / 2 + offset / 2 + bandWidth / 3) (bandLength - bandWidth * 2 / 3)
      (bandWidth / 3) (max 0 (r - bandWidth / 3))
    let crossPath := Motif.roundedRectPath (c - bandWidth / 2) (c - bandWidth / 2)
      bandWidth bandWidth 0
    band1Outer ++ (" ") ++ band1Inner ++ (" ") ++ band2Outer ++ (" ") ++ band2Inner ++ (" ") ++
      crossPath
  else
    let b := bandLength / 2
    ("M ") ++ ratToStr (c - offset - b) ++ (" ") ++ ratToStr (c - offset / 2) ++
    (" Q ") ++ ratToStr (c - offset) ++ (" ") ++ ratToStr (c - offset) ++ (" ") ++
      ratToStr (c - offset + b) ++ (" ") ++ ratToStr (c - offset / 2) ++
    (" M ") ++ ratToStr (c + offset - b) ++ (" ") ++ ratToStr (c + offset / 2) ++
    (" Q ") ++ ratToStr (c + offset) ++ (" ") ++ ratToStr (c + offset) ++ (" ") ++
      ratToStr (c + offset + b) ++ (" ") ++ ratToStr (c + offset / 2)

/-- Input record of the glyph outline provider `textToPath`. -/
structure TtpInput where
  text : String
  fontFamily : String
  fontSize : ℚ
  fontWeight : ℚ
  tracking : ℚ
  x : ℚ
  y : ℚ
deriving Repr

/-- Abstracted outline provider; `none` models a thrown error. -/
abbrev Ttp := TtpInput → Option String

/-- A path plus its `transform` attribute (monogram pair case). -/
structure TransformedPath where
  d : String
  transform : String
deriving DecidableEq, Repr

/-- Result of a family builder: one path string, or transform-positioned
paths for the two-initial monogram. -/
abbrev MonoPaths := String ⊕ List TransformedPath

/-- The token sequence of the monogram catch-block fallback: two full-circle
two-arc subpaths of radius `0.36*grid` about the grid center `(c, c)`,
differing only in their start point. -/
def monogramFallbackTokens (grid : ℚ) : List String :=
  let c := grid / 2
  let r := grid * (36 / 100)
  [("M"), ratToStr (c - r), ratToStr c,
   ("A"), ratToStr r, ratToStr r, ("0"), ("1"), ("1"), ratToStr (c + r), ratToStr c,
   ("A"), ratToStr r, ratToStr r, ("0"), ("1"), ("1"), ratToStr (c - r), ratToStr c,
   ("M"), ratToStr c, ratToStr (c - r),
   ("A"), ratToStr r, ratToStr r, ("0"), ("1"), ("1"), ratToStr c, ratToStr (c + r),
   ("A"), ratToStr r, ratToStr r, ("0"), ("1"), ("1"), ratToStr c, ratToStr (c - r)]

/-- The fallback string `path1 + " " + path2` of the catch block (its
space-separated pieces are exactly `monogramFallbackTokens`). -/
def monogramFallback (grid : ℚ) : String :=
  String.intercalate (" ") (monogramFallbackTokens grid)

/-- `buildMonogramInterlock(grid, strokePx, cornerRadiusPx, brandName,
seedNum)` parameterized by the outline provider. -/
def buildMonogramInterlock (ttp : Ttp) (grid strokePx cornerRadiusPx : ℚ)
    (brandName : String) (seedNum : ℕ) : MonoPaths :=
  let words := (splitWs brandName.trim).filter (fun w => w ≠ (""))
  let firstInitial :=
    (match (words.getD 0 ("")).toList.head? with
      | some ch => String.mk [ch]
      | none => ("A")).toUpper
  let secondInitial :=
    if 2 ≤ words.length then
      (match (words.getD 1 ("")).toList.head? with
        | some ch => String.mk [ch]
        | none => firstInitial).toUpper
    else firstInitial
  let useTwo := 2 ≤ words.length ∧ firstInitial ≠ secondInitial
  let fontSize : ℚ := 64
  let c := grid / 2
  let scale := grid * (52 / 100) / fontSize
  let attempt : Option (String × String) := do
    let p1 ← ttp ⟨firstInitial, ("Inter"), fontSize, 700, 0, 0, 0⟩
    let p2 ← if useTwo then ttp ⟨secondInitial, ("Inter"), fontSize, 700, 0, 0, 0⟩ else some p1
    pure (p1, p2)
  match attempt with
  | none => Sum.inl (monogramFallback grid)
  | some p12 =>
    if ¬ useTwo then Sum.inl p12.1
    else
      let tx1 := c - fontSize * scale * (42 / 100)
      let ty := c + fontSize * scale * (35 / 100)
      let tx2 := c - fontSize * scale * (8 / 100)
      Sum.inr
        [⟨p12.1, ("translate(") ++ ratToStr tx1 ++ (",") ++ ratToStr ty ++ (") scale(") ++
            ratToStr scale ++ (")")⟩,
         ⟨p12.2, ("translate(") ++ ratToStr tx2 ++ (",") ++ ratToStr ty ++ (") scale(") ++
            ratToStr scale ++ (")")⟩]

/-- `buildMarkPath(input)`. -/
def buildMarkPath (M : JsMath) (ttp : Ttp) (input : MotifMarkInput) : MonoPaths :=
  let seedNum := hashSeed input.seed
  let variation := markVariation input.variant input.seed
  let fillMode := input.use_fill.getD true
  match input.motif_family with
  | .loop => Sum.inl (buildLoop input.grid input.stroke_px input.corner_radius_px
      variation fillMode)
  | .interlock => Sum.inl (buildInterlock input.grid input.stroke_px input.corner_radius_px
      variation fillMode)
  | .orbit => Sum.inl (buildOrbit M input.grid input.stroke_px input.corner_radius_px
      variation fillMode)
  | .fold => Sum.inl (buildFold input.grid input.stroke_px input.corner_radius_px
      variation fillMode)
  | .swap => Sum.inl (buildSwap input.grid input.stroke_px input.corner_radius_px
      variation fillMode)
  | .monogram_interlock => buildMonogramInterlock ttp input.grid input.stroke_px
      input.corner_radius_px input.brand_name seedNum

/-! ### JS `String.prototype.includes` -/

/-- Substring search over character lists. -/
def containsSeq (pat : List Char) : List Char → Bool
  | [] => pat.isEmpty
  | c :: r => pat.isPrefixOf (c :: r) || containsSeq pat r

/-- `s.includes(pat)`. -/
def jsIncludes (s pat : String) : Bool := containsSeq pat.toList s.toList

/-- `construction` record of the motif output. -/
structure MotifConstruction where
  grid : ℚ
  stroke_px : ℚ
  corner_radius_px : ℚ
deriving DecidableEq, Repr

/-- Output of `generateMotifMark`. -/
structure MotifMarkOutput where
  mark_svg : String
  construction : MotifConstruction
deriving DecidableEq, Repr

/-- The four pieces of the svg document surrounding the interpolations; kept
as named definitions so containment lemmas can cut the string at the same
places the template does. -/
def svgHeaderA : String := "<svg xmlns=\"http://www.w3.org/2000/svg\" width=\""

/-- Template piece between `width` and `viewBox`. -/
def svgHeaderB (grid : ℚ) : String :=
  ("\" height=\"") ++ ratToStr grid ++ ("\" viewBox=\"0 0 ") ++ ratToStr grid ++ (" ") ++
    ratToStr grid ++ ("\" role=\"img\" aria-label=\"")

/-- The assembled svg document of `generateMotifMark` (the trailing `.trim()`
of the source is a no-op: the template starts with `<` and ends with `>`). -/
def motifSvg (M : JsMath) (ttp : Ttp) (input : MotifMarkInput) : String :=
  let pathOrPaths := buildMarkPath M ttp input
  let effectiveStrokePx := max input.stroke_px (5 * (input.grid / 640))
  let fillMode := input.use_fill.getD true
  let pathAttrs :=
    if fillMode then
      ("fill=\"") ++ input.primary_hex ++ ("\" fill-rule=\"evenodd\" stroke=\"none\"")
    else
      ("fill=\"none\" stroke=\"") ++ input.primary_hex ++ ("\" stroke-width=\"") ++
        ratToStr effectiveStrokePx ++ ("\" stroke-linecap=\"round\" stroke-linejoin=\"round\"")
  let pathContent :=
    match pathOrPaths with
    | Sum.inr ps =>
      String.intercalate ("\n") (ps.map (fun p =>
        ("  <path d=\"") ++ p.d ++ ("\" ") ++ pathAttrs ++ (" transform=\"") ++ p.transform ++
          ("\" />")))
    | Sum.inl s => ("  <path d=\"") ++ s ++ ("\" ") ++ pathAttrs ++ (" />")
  svgHeaderA ++ ratToStr input.grid ++ svgHeaderB input.grid ++ input.brand_name ++
    (" mark\">\n") ++ pathContent ++ ("\n</svg>")

/-- `generateMotifMark(input)`: assembles the svg, throws exactly when it
contains the substring `<text` (the circle and path-count checks only
`console.warn`), and otherwise returns the mark with its construction
record (`stroke_px` is the effective minimum-weight stroke). -/
def generateMotifMark (M : JsMath) (ttp : Ttp) (input : MotifMarkInput) :
    Except String MotifMarkOutput :=
  let mark_svg := motifSvg M ttp input
  let effectiveStrokePx := max input.stroke_px (5 * (input.grid / 640))
  if jsIncludes mark_svg ("<text") then
    Except.error ("Mark SVG contains <text> tag - must be path-only")
  else
    Except.ok ⟨mark_svg, ⟨input.grid, effectiveStrokePx, input.corner_radius_px⟩⟩

/-! ### Wordmark evaluator (src/src/tools/wordmarkEvaluator.tool.ts)

Modelled over the reals because `spacingConsistency` takes a square root.
Definitions in this section are noncomputable; concrete evaluations in the
theorems go through `norm_num` with explicit square-root facts. -/

/-- Characters of the evaluator's numeric regex class `[\d.]`. -/
def isEvalNumChar (c : Char) : Bool := c.isDigit || c = '.'

/-- Scan for the regex `-?[\d.]+` (flag `g`) used by the evaluator's
`pathArea` (fuel-structural; `l.length` fuel suffices). -/
def evalTokenAuxF : ℕ → List Char → List String
  | _, [] => []
  | 0, _ :: _ => []
  | fuel + 1, c :: cs =>
    if c = '-' then
      if (cs.head?.map isEvalNumChar).getD false then
        String.mk ('-' :: cs.takeWhile isEvalNumChar) ::
          evalTokenAuxF fuel (cs.dropWhile isEvalNumChar)
      else evalTokenAuxF fuel cs
    else if isEvalNumChar c then
      String.mk (c :: cs.takeWhile isEvalNumChar) ::
        evalTokenAuxF fuel (cs.dropWhile isEvalNumChar)
    else evalTokenAuxF fuel cs

/-- Numeric tokens of a path string (`d.match(...)`). -/
def evalTokens (s : String) : List String := evalTokenAuxF s.toList.length s.toList

noncomputable section

/-- Consecutive coordinate pairs (`while (i < n - 1) ... i += 2`; an odd
trailing token is dropped).  Tokens that `parseFloat` rejects are coerced
to 0 here (the source would propagate NaN; no claim reaches this case). -/
def evalPairs : List String → List (ℝ × ℝ)
  | a :: b :: rest =>
    (((jsParseFloat a).getD 0 : ℚ), ((jsParseFloat b).getD 0 : ℚ)) :: evalPairs rest
  | _ => []

/-- The evaluator's own `pathArea(d)` (open shoelace over coordinate pairs,
skipping the first pair). -/
def evalPathArea (d : String) : ℝ :=
  let nums := evalTokens d
  if nums.length < 4 then 0
  else
    match evalPairs nums with
    | [] => 0
    | p0 :: rest =>
      |(rest.foldl (fun (acc : ℝ × ℝ × ℝ) p =>
          (acc.1 + (acc.2.1 * p.2 - p.1 * acc.2.2) / 2, p)) (0, p0)).1|

/-- `pathCommandCount(d)`: occurrences of `[MLCQAZ]` in either case. -/
def pathCommandCount (d : String) : ℕ := d.toList.countP isCmdTokChar

/-- Evaluator bounding box (real-valued). -/
structure EvalBBox where
  x : ℝ
  y : ℝ
  w : ℝ
  h : ℝ

/-- One evaluated path with its own bbox. -/
structure EvalPath where
  d : String
  bbox : EvalBBox

/-- Optional external metrics. -/
structure EvalMetricsIn where
  pathCount : Option ℝ
  commandCount : Option ℝ
  advanceWidth : Option ℝ

/-- Evaluator input after the destructuring defaults `paths = []`,
`advances = []` (the unused `svg` field is omitted). -/
structure WordmarkEvaluatorInput where
  bbox : EvalBBox
  paths : List EvalPath
  metrics : Option EvalMetricsIn
  advances : List ℝ

/-- Score breakdown. -/
structure EvalBreakdown where
  legibility : ℝ
  weight : ℝ
  distinctiveness : ℝ
  spacingConsistency : ℝ

/-- Evaluator output. -/
structure WordmarkEvaluatorOutput where
  totalScore : ℝ
  breakdown : EvalBreakdown
  flags : List String

/-- `advances.reduce((a, b) => a + b, 0) / advances.length`. -/
def listMean (l : List ℝ) : ℝ := l.foldl (fun a b => a + b) 0 / l.length

/-- `advances.reduce((acc, v) => acc + (v - mean) ** 2, 0) / advances.length`. -/
def listVariance (l : List ℝ) : ℝ :=
  l.foldl (fun acc v => acc + (v - listMean l) ^ 2) 0 / l.length

/-- The spacing-consistency block (evaluator lines 115-122): untouched `100`
for fewer than two advances or nonpositive mean, otherwise
`max(0, 100 - (stddev / mean) * 200)`. -/
def spacingScore (l : List ℝ) : ℝ :=
  if 2 ≤ l.length then
    if 0 < listMean l then max 0 (100 - Real.sqrt (listVariance l) / listMean l * 200)
    else 100
  else 100

/-- `Math.round(x * 10) / 10`. -/
def jsRound10 (x : ℝ) : ℝ := (⌊x * 10 + 1 / 2⌋ : ℤ) / 10

/-- `runWordmarkEvaluator(input)`. -/
def runWordmarkEvaluator (input : WordmarkEvaluatorInput) : WordmarkEvaluatorOutput :=
  let bbox := input.bbox
  let paths := input.paths
  let bboxArea := bbox.w * bbox.h
  let pathCount : ℝ :=
    if 0 < paths.length then (paths.length : ℝ)
    else ((input.metrics.bind (fun m => m.pathCount)).getD 0)
  let commandCount : ℝ :=
    match input.metrics.bind (fun m => m.commandCount) with
    | some cc => cc
    | none => paths.foldl (fun acc p => acc + (pathCommandCount p.d : ℝ)) 0
  let totalArea := paths.foldl (fun acc p => acc + evalPathArea p.d) 0
  let mcs := paths.foldl (fun m p =>
    let m1 := if 0 < p.bbox.w ∧ 0 < p.bbox.h ∧ p.bbox.w < m then p.bbox.w else m
    if 0 < p.bbox.h ∧ p.bbox.h < m1 then p.bbox.h else m1) bbox.w
  let minCounterSize := if bboxArea ≤ 0 then 0 else mcs
  let legibilityBbox := if 0 < bboxArea then min 100 (totalArea / bboxArea * 80) else 0
  let legibilityCounter := if 0 < bbox.w then min 100 (minCounterSize / bbox.w * 150) else 0
  let legibility := min 100 ((legibilityBbox + legibilityCounter) / 2)
  let weight := if 0 < bboxArea then min 100 (totalArea / bboxArea * 120) else 0
  let aspectRatio := if 0 < bbox.h then bbox.w / bbox.h else 1
  let nodeBand : ℝ :=
    if commandCount < 30 then 0
    else if commandCount < 100 then 50 else min 100 (commandCount / 5)
  let aspectScore : ℝ :=
    if 1 ≤ aspectRatio ∧ aspectRatio ≤ 20 then 100
    else if aspectRatio < 1 then 50 else max 0 (100 - aspectRatio)
  let distinctiveness := min 100 ((nodeBand + aspectScore) / 2)
  let spacingConsistency := spacingScore input.advances
  let flags : List String :=
    (if pathCount < 2 then [("low_path_count")] else []) ++
    (if minCounterSize < bbox.w * (2 / 100) then [("tiny_counters")] else []) ++
    (if weight < 20 then [("too_light")] else []) ++
    (if 95 < weight then [("very_heavy")] else []) ++
    (if commandCount < 30 then [("low_detail")] else []) ++
    (if 2 ≤ input.advances.length ∧ spacingConsistency < 50 then [("inconsistent_spacing")]
     else [])
  let totalScore :=
    legibility * (35 / 100) + weight * (20 / 100) + distinctiveness * (25 / 100) +
      spacingConsistency * (20 / 100)
  { totalScore := jsRound10 (min 100 (max 0 totalScore))
    breakdown :=
      { legibility := jsRound10 legibility
        weight := jsRound10 weight
        distinctiveness := jsRound10 distinctiveness
        spacingConsistency := jsRound10 spacingConsistency }
    flags := flags }

end

/-! ## Shared concrete instances used by witnesses and counterexamples -/

/-- A clipper kernel that always fails (its behaviour is irrelevant to the
inputs it is used with). -/
def clipNone : ClipExec := fun _ _ _ => none

/-- A trivial `Math` instance (its trig is never consulted by the inputs it
is used with). -/
def jsMathZero : JsMath := ⟨0, fun _ => 0, fun _ => 0⟩

/-- An outline provider that always throws. -/
def ttpFail : Ttp := fun _ => none

/-- A base whose `path_d` differs textually from its glyphs' joined paths. -/
def baseSquare : WordmarkBase :=
  ⟨("M 0 0 L 4 0 L 4 4 L 0 4 Z"), ("0 0 4 4"), 4, 4,
    [⟨0, ("a"), ("M 0 0 L 2 0 L 2 2 L 0 2 Z"), ⟨0, 0, 2, 2⟩, 2⟩]⟩

/-- A plan with no devices and no compression. -/
def planEmpty : WordmarkCustomizationPlan := ⟨[], [], ⟨1, 0⟩, ⟨0⟩, []⟩

/-- A parser state holding an open two-point ring begun at the subpath
start `(0, 0)`. -/
def pst0 : PState := ⟨[], [(0, 0), (2, 3)], 2, 3, 0, 0⟩

/-! ## Claim C10 — metrics ranges -/

/-- Every clamped score of `computeMetrics` lies in `[0, 100]`. -/
lemma clamp_bounds (x : ℚ) : 0 ≤ min 100 (max 0 x) ∧ min 100 (max 0 x) ≤ 100 :=
  ⟨le_min (by norm_num) (le_max_left 0 x), min_le_left _ _⟩

/-- C10: for every pair of path strings and optional original area, every
result of `computeMetrics` has all four fields in `[0, 100]`, with
`silhouette_delta` equal to 0 or 100. -/
theorem c10_computeMetrics_bounds (o m : String) (oa : Option ℚ) (r : WordmarkMetrics)
    (h : computeMetrics o m oa = some r) :
    0 ≤ r.device_visibility ∧ r.device_visibility ≤ 100 ∧
    (r.silhouette_delta = 0 ∨ r.silhouette_delta = 100) ∧
    0 ≤ r.default_font_risk ∧ r.default_font_risk ≤ 100 ∧
    0 ≤ r.legibility ∧ r.legibility ≤ 100 := by
  have key : ∀ (dv fr lg : ℚ) (cond : Prop) (_ : Decidable cond),
      r = (⟨min 100 (max 0 dv), if cond then (100 : ℚ) else 0,
            min 100 (max 0 fr), min 100 (max 0 lg)⟩ : WordmarkMetrics) →
      0 ≤ r.device_visibility ∧ r.device_visibility ≤ 100 ∧
      (r.silhouette_delta = 0 ∨ r.silhouette_delta = 100) ∧
      0 ≤ r.default_font_risk ∧ r.default_font_risk ≤ 100 ∧
      0 ≤ r.legibility ∧ r.legibility ≤ 100 := by
    intro dv fr lg cond hd hr
    subst hr
    refine ⟨(clamp_bounds _).1, (clamp_bounds _).2, ?_, (clamp_bounds _).1, (clamp_bounds _).2,
      (clamp_bounds _).1, (clamp_bounds _).2⟩
    dsimp only
    rcases hd with hfalse | htrue
    · left
      rw [if_neg hfalse]
    · right
      rw [if_pos htrue]
  rcases oa with _ | a
  · rcases ho : pathArea o with _ | aO
    · simp only [computeMetrics, ho, Option.bind_eq_bind, Option.none_bind] at h
      exact Option.noConfusion h
    · rcases hm : pathArea m with _ | aM
      · simp only [computeMetrics, ho, hm, Option.bind_eq_bind, Option.some_bind,
          Option.none_bind] at h
        exact Option.noConfusion h
      · simp only [computeMetrics, ho, hm, Option.bind_eq_bind, Option.some_bind,
          Option.pure_def, Option.some.injEq] at h
        exact key _ _ _ _ _ h.symm
  · rcases hm : pathArea m with _ | aM
    · simp only [computeMetrics, hm, Option.bind_eq_bind, Option.some_bind,
        Option.none_bind] at h
      exact Option.noConfusion h
    · simp only [computeMetrics, hm, Option.bind_eq_bind, Option.some_bind,
        Option.pure_def, Option.some.injEq] at h
      exact key _ _ _ _ _ h.symm

/-- C10 witness: identical paths give metrics `(0, 0, 100, 100)`, inside the
stated ranges. -/
theorem c10_witness :
    0 ≤ (⟨0, 0, 100, 100⟩ : WordmarkMetrics).device_visibility ∧
    (⟨0, 0, 100, 100⟩ : WordmarkMetrics).device_visibility ≤ 100 ∧
    ((⟨0, 0, 100, 100⟩ : WordmarkMetrics).silhouette_delta = 0 ∨
      (⟨0, 0, 100, 100⟩ : WordmarkMetrics).silhouette_delta = 100) ∧
    0 ≤ (⟨0, 0, 100, 100⟩ : WordmarkMetrics).default_font_risk ∧
    (⟨0, 0, 100, 100⟩ : WordmarkMetrics).default_font_risk ≤ 100 ∧
    0 ≤ (⟨0, 0, 100, 100⟩ : WordmarkMetrics).legibility ∧
    (⟨0, 0, 100, 100⟩ : WordmarkMetrics).legibility ≤ 100 :=
  c10_computeMetrics_bounds ("M 0 0 L 4 0 L 4 4 L 0 4 Z") ("M 0 0 L 4 0 L 4 4 L 0 4 Z") none
    ⟨0, 0, 100, 100⟩ (by with_unfolding_all decide)

/-! ## Claim C5 — variation selection -/

/-- Congruence of the 32-bit wrap. -/
lemma toInt32_congr {a b : ℤ} (h : a % 2 ^ 32 = b % 2 ^ 32) : toInt32 a = toInt32 b := by
  unfold toInt32
  omega

/-- One `hashSeed` step equals one step of the spec's `h*31 + c` formula:
`(h << 5) - h + c ≡ h*31 + c (mod 2^32)`. -/
lemma hashStep_eq (h : ℤ) (c : ℕ) : hashStep h c = toInt32 (h * 31 + (c : ℤ)) := by
  unfold hashStep
  apply toInt32_congr
  have h1 : toInt32 (h * 32) % 2 ^ 32 = h * 32 % 2 ^ 32 := by
    unfold toInt32
    omega
  omega

lemma hashFold_eq (l : List ℕ) : ∀ h : ℤ,
    l.foldl hashStep h = l.foldl (fun h c => toInt32 (h * 31 + (c : ℤ))) h := by
  induction l with
  | nil => intro h; rfl
  | cons c t ih =>
    intro h
    simp only [List.foldl_cons, hashStep_eq]
    exact ih _

/-- `hashSeed` is the absolute value of the spec's signed rolling hash. -/
lemma hashSeed_eq_spec (s : String) : hashSeed s = (specRollingHash s).natAbs := by
  unfold hashSeed specRollingHash
  rw [hashFold_eq]

/-- C5 (amended): the variation is the explicit variant when present and
otherwise the **absolute value** of the signed 32-bit rolling hash, mod 6;
the derived variation always lies in `[0, 6)` and an explicit variant
within its schema bounds `[0, 5]` is passed through unchanged. -/
theorem c5_variation_amended (v : Option ℚ) (s : String) :
    markVariation v s = v.getD (((specRollingHash s).natAbs % 6 : ℕ) : ℚ) ∧
    (0 ≤ markVariation none s ∧ markVariation none s < 6) ∧
    (∀ x : ℚ, 0 ≤ x → x ≤ 5 → 0 ≤ markVariation (some x) s ∧ markVariation (some x) s ≤ 5) := by
  refine ⟨?_, ⟨?_, ?_⟩, ?_⟩
  · cases v <;> simp [markVariation, hashSeed_eq_spec]
  · simp only [markVariation]
    positivity
  · simp only [markVariation]
    have hlt : hashSeed s % 6 < 6 := Nat.mod_lt _ (by norm_num)
    exact_mod_cast hlt
  · intro x h0 h5
    exact ⟨h0, h5⟩

/-- C5 witness: an in-range explicit variant is passed through within
bounds. -/
theorem c5_witness : 0 ≤ markVariation (some 3) ("x") ∧ markVariation (some 3) ("x") ≤ 5 :=
  (c5_variation_amended (some 3) ("x")).2.2 3 (by norm_num) (by norm_num)

/-- C5 counterexample: for seed `"aaaaaa"` the signed rolling hash is
negative; the code's variation (`|h| % 6 = 4`) differs from the claim's
`hash(seed) mod 6` under both the mathematical reading (2) and the JS
remainder reading (-4). -/
theorem c5_counterexample :
    specRollingHash ("aaaaaa") < 0 ∧
    markVariation none ("aaaaaa") = 4 ∧
    specRollingHash ("aaaaaa") % 6 = 2 ∧
    Int.tmod (specRollingHash ("aaaaaa")) 6 = -4 ∧
    markVariation none ("aaaaaa") ≠ ((2 : ℤ) : ℚ) ∧
    markVariation none ("aaaaaa") ≠ ((-4 : ℤ) : ℚ) := by
  with_unfolding_all decide

/-! ## Claim C7 — ring closure on Z and trailing-ring emission -/

/-- C7 (amended): on a `Z` token with at least two current points the
parser emits the current ring with the subpath-start register appended
(tagged as Z-closed) and clears it; when the ring's first point is that
subpath start — every ring begun by an `M` — the emitted ring ends where it
begins.  A `Z` with fewer than two points only clears the ring, and after
the token loop a trailing unterminated ring with at least two points is
emitted as the final polygon. -/
theorem c7_z_closure_amended (samples : ℕ) (t : String) (rest : List String) (st : PState)
    (hZ : t.toUpper = ("Z")) :
    (2 ≤ st.current.length →
      pstep samples t rest st =
        some (rest,
          { st with polys := st.polys ++ [(st.current ++ [(st.sx, st.sy)], true)],
                    current := [] }) ∧
      (st.current.head? = some (st.sx, st.sy) →
        (st.current ++ [(st.sx, st.sy)]).head? = (st.current ++ [(st.sx, st.sy)]).getLast?)) ∧
    (st.current.length < 2 → pstep samples t rest st = some (rest, { st with current := [] })) ∧
    (∀ stF : PState, 2 ≤ stF.current.length →
      (parseFinish stF).getLast? = some (stF.current, false)) := by
  refine ⟨fun h2 => ⟨?_, fun hhead => ?_⟩, fun hlt => ?_, fun stF h2F => ?_⟩
  · simp [pstep, hZ, h2]
  · rw [List.getLast?_concat]
    rcases hc : st.current with _ | ⟨p, tl⟩
    · rw [hc] at h2
      simp at h2
    · rw [hc] at hhead
      simp only [List.head?_cons, Option.some.injEq] at hhead
      simp [hhead]
  · have hn : ¬ 2 ≤ st.current.length := by omega
    simp [pstep, hZ, hn]
  · simp [parseFinish, h2F]

/-- C7 witness: closing a two-point ring begun at the subpath start. -/
theorem c7_witness :
    pstep 120 ("Z") [] pst0 =
      some ([],
        { pst0 with polys := pst0.polys ++ [(pst0.current ++ [(pst0.sx, pst0.sy)], true)],
                    current := [] }) ∧
    (pst0.current ++ [(pst0.sx, pst0.sy)]).head? =
      (pst0.current ++ [(pst0.sx, pst0.sy)]).getLast? := by
  have h := c7_z_closure_amended 120 ("Z") [] pst0 (by with_unfolding_all decide)
  have h2 : 2 ≤ pst0.current.length := by with_unfolding_all decide
  exact ⟨(h.1 h2).1, (h.1 h2).2 (by with_unfolding_all decide)⟩

/-- C7 counterexample: in `"M 0 0 L 1 0 Z L 5 5 L 6 6 Z"` the second ring is
begun by a stray `L` after a `Z`; the parser closes it with the previous
subpath start `(0, 0)`, so the emitted Z-closed ring's last point differs
from its first point, contradicting the claim as stated. -/
theorem c7_counterexample :
    pathDToPolygonsT ("M 0 0 L 1 0 Z L 5 5 L 6 6 Z") 120 =
      some [([(0, 0), (1, 0), (0, 0)], true), ([(5, 5), (6, 6), (0, 0)], true)] ∧
    ([((5 : ℚ), (5 : ℚ)), (6, 6), (0, 0)] : Polygon).head? ≠
      ([((5 : ℚ), (5 : ℚ)), (6, 6), (0, 0)] : Polygon).getLast? := by
  with_unfolding_all decide

/-! ## Claim C8 — parser totality -/

/-- Guard simulating the parser's token consumption with only a
"current ring nonempty" flag: `true` exactly when no `C`/`Q` command can
arrive on an empty ring. -/
def curveSafeAuxF : ℕ → List String → Bool → Bool
  | _, [], _ => true
  | 0, _ :: _, _ => false
  | fuel + 1, t :: rest, hasCur =>
    if t.toUpper = ("M") then curveSafeAuxF fuel (nextNum2 rest).2 true
    else if t.toUpper = ("L") then curveSafeAuxF fuel (nextNum2 rest).2 true
    else if t.toUpper = ("C") then hasCur && curveSafeAuxF fuel (nextNum6 rest).2 true
    else if t.toUpper = ("Q") then hasCur && curveSafeAuxF fuel (nextNum4 rest).2 true
    else if t.toUpper = ("Z") then curveSafeAuxF fuel rest false
    else curveSafeAuxF fuel rest hasCur

/-- Totality guard for a whole path string. -/
def curveSafe (d : String) : Bool := curveSafeAuxF (tokenize d).length (tokenize d) false

/-- With sufficient fuel, a `curveSafe` token stream can never crash the
parse loop. -/
lemma parseLoopF_isSome (samples : ℕ) : ∀ (fuel : ℕ) (toks : List String) (st : PState),
    toks.length ≤ fuel → curveSafeAuxF fuel toks (!st.current.isEmpty) = true →
    (parseLoopF samples fuel toks st).isSome := by
  intro fuel
  induction fuel with
  | zero =>
    intro toks st hlen _
    cases toks with
    | nil => simp [parseLoopF]
    | cons t r => simp at hlen
  | succ n ih =>
    intro toks st hlen hsafe
    cases toks with
    | nil => simp [parseLoopF]
    | cons t rest =>
      have hlen' : rest.length ≤ n := by
        simp only [List.length_cons] at hlen
        omega
      have hcur : ∀ l : List Pt, l ≠ [] → (!l.isEmpty) = true := by
        intro l hl
        cases l with
        | nil => exact absurd rfl hl
        | cons a b => rfl
      by_cases hM : t.toUpper = ("M")
      · simp [curveSafeAuxF, hM] at hsafe
        simp [parseLoopF, pstep, hM]
        exact ih _ _ (le_trans (nextNum2_len rest) hlen') hsafe
      by_cases hL : t.toUpper = ("L")
      · simp [curveSafeAuxF, hM, hL] at hsafe
        simp [parseLoopF, pstep, hM, hL]
        refine ih _ _ (le_trans (nextNum2_len rest) hlen') ?_
        rw [hcur _ (by simp)]
        exact hsafe
      by_cases hC : t.toUpper = ("C")
      · simp [curveSafeAuxF, hM, hL, hC, Bool.and_eq_true] at hsafe
        obtain ⟨hcur1, hrec⟩ := hsafe
        have hne : st.current ≠ [] := by
          intro hnil
          rw [hnil] at hcur1
          simp at hcur1
        cases hgl : st.current.getLast? with
        | none =>
          exact absurd (List.getLast?_eq_none_iff.mp hgl) hne
        | some p =>
          simp [parseLoopF, pstep, hM, hL, hC, hgl]
          refine ih _ _ (le_trans (nextNum6_len rest) hlen') ?_
          rw [hcur _ (by simp [hne])]
          exact hrec
      by_cases hQ : t.toUpper = ("Q")
      · simp [curveSafeAuxF, hM, hL, hC, hQ, Bool.and_eq_true] at hsafe
        obtain ⟨hcur1, hrec⟩ := hsafe
        have hne : st.current ≠ [] := by
          intro hnil
          rw [hnil] at hcur1
          simp at hcur1
        cases hgl : st.current.getLast? with
        | none =>
          exact absurd (List.getLast?_eq_none_iff.mp hgl) hne
        | some p =>
          simp [parseLoopF, pstep, hM, hL, hC, hQ, hgl]
          refine ih _ _ (le_trans (nextNum4_len rest) hlen') ?_
          rw [hcur _ (by simp [hne])]
          exact hrec
      by_cases hZ : t.toUpper = ("Z")
      · simp [curveSafeAuxF, hM, hL, hC, hQ, hZ] at hsafe
        by_cases h2 : 2 ≤ st.current.length
        · simp [parseLoopF, pstep, hM, hL, hC, hQ, hZ, h2]
          exact ih _ _ hlen' hsafe
        · simp [parseLoopF, pstep, hM, hL, hC, hQ, hZ, h2]
          exact ih _ _ hlen' hsafe
      · simp [curveSafeAuxF, hM, hL, hC, hQ, hZ] at hsafe
        simp [parseLoopF, pstep, hM, hL, hC, hQ, hZ]
        exact ih _ _ hlen' hsafe

/-- C8 (amended): malformed or non-finite numeric tokens are coerced to 0,
and `pathDToPolygons` cannot crash on any path in which no `C`/`Q` command
arrives while the current ring is empty (`curveSafe`); it is **not** total —
a `C`/`Q` on an empty ring dereferences an undefined point (see the
counterexample). -/
theorem c8_parser_amended :
    (∀ (t : String) (r : List String), jsParseFloat t = none → (nextNum (t :: r)).1 = 0) ∧
    (∀ (d : String) (samples : ℕ), curveSafe d = true → (pathDToPolygons d samples).isSome) := by
  constructor
  · intro t r hb
    simp [nextNum, hb]
  · intro d samples hsafe
    have h := parseLoopF_isSome samples (tokenize d).length (tokenize d) initPState le_rfl hsafe
    unfold pathDToPolygons pathDToPolygonsT parseLoop
    rcases hp : parseLoopF samples (tokenize d).length (tokenize d) initPState with _ | stF
    · rw [hp] at h
      simp at h
    · simp [hp]

/-- C8 witness: a garbage token reads as 0, and a well-formed path parses. -/
theorem c8_witness :
    (nextNum [("zz")]).1 = 0 ∧ (pathDToPolygons ("M 0 0 L 1 0 L 1 1 Z") 120).isSome :=
  ⟨c8_parser_amended.1 ("zz") [] (by with_unfolding_all decide),
   c8_parser_amended.2 ("M 0 0 L 1 0 L 1 1 Z") 120 (by with_unfolding_all decide)⟩

/-- C8 counterexample: a path starting with a `C` command makes the JS
parser dereference `current[-1]` and throw a TypeError (modelled by
`none`), refuting "total and never raises on any input string". -/
theorem c8_counterexample : pathDToPolygons ("C 1 2 3 4 5 6") 120 = none := by
  with_unfolding_all decide

/-! ## Claim C2 — the monogram provider-failure fallback -/

lemma digitChar_isDigit {d : ℕ} (h : d < 10) : (digitChar d).isDigit = true := by
  interval_cases d <;> decide

lemma natDigitsAux_chars : ∀ (fuel n : ℕ), ∀ c ∈ natDigitsAux fuel n, c.isDigit = true := by
  intro fuel
  induction fuel with
  | zero =>
    intro n c hc
    simp [natDigitsAux] at hc
  | succ f ih =>
    intro n c hc
    by_cases hn : n < 10
    · simp [natDigitsAux, hn] at hc
      subst hc
      exact digitChar_isDigit hn
    · simp only [natDigitsAux, hn, if_false, ite_false] at hc
      rcases List.mem_append.mp hc with h1 | h1
      · exact ih _ _ h1
      · simp at h1
        subst h1
        exact digitChar_isDigit (Nat.mod_lt _ (by norm_num))

lemma natDigitsStr_chars (n : ℕ) : ∀ c ∈ (natDigitsStr n).toList, c.isDigit = true :=
  fun c hc => natDigitsAux_chars _ _ c hc

lemma mem_toList_append {c : Char} {a b : String} :
    c ∈ (a ++ b).toList ↔ c ∈ a.toList ∨ c ∈ b.toList := by
  have e : (a ++ b).toList = a.toList ++ b.toList := rfl
  rw [e]
  exact List.mem_append

/-- Character class produced by `ratToStr`. -/
def ratChar (c : Char) : Prop := c.isDigit = true ∨ c = '-' ∨ c = '.' ∨ c = '/'

lemma intStr_chars (n : ℤ) : ∀ c ∈ (intStr n).toList, ratChar c := by
  intro c hc
  unfold intStr at hc
  split at hc
  · rcases mem_toList_append.mp hc with h1 | h1
    · right
      left
      simpa using h1
    · exact Or.inl (natDigitsStr_chars _ c h1)
  · exact Or.inl (natDigitsStr_chars _ c hc)

lemma padZeros_chars (l : List Char) (k : ℕ) (hl : ∀ c ∈ l, c.isDigit = true) :
    ∀ c ∈ padZeros l k, c.isDigit = true := by
  intro c hc
  rcases List.mem_append.mp hc with h1 | h1
  · have := List.eq_of_mem_replicate h1
    subst this
    decide
  · exact hl c h1

lemma ratToStr_chars (q : ℚ) : ∀ c ∈ (ratToStr q).toList, ratChar c := by
  intro c hc
  unfold ratToStr at hc
  split at hc
  · exact intStr_chars _ c hc
  · rcases hfind : (List.range 40).find? (fun k => (q * (10 : ℚ) ^ (k + 1)).den = 1) with _ | k0
    · rw [hfind] at hc
      rcases mem_toList_append.mp hc with h1 | h1
      · rcases mem_toList_append.mp h1 with h2 | h2
        · exact intStr_chars _ c h2
        · right
          right
          right
          simpa using h2
      · exact Or.inl (natDigitsStr_chars _ c h1)
    · rw [hfind] at hc
      simp only at hc
      rcases mem_toList_append.mp hc with h1 | h1
      · rcases mem_toList_append.mp h1 with h2 | h2
        · rcases mem_toList_append.mp h2 with h3 | h3
          · split at h3
            · right
              left
              simpa using h3
            · simp at h3
          · exact Or.inl (natDigitsStr_chars _ c h3)
        · right
          right
          left
          simpa using h2
      · exact Or.inl (padZeros_chars _ _ (natDigitsStr_chars _) c h1)

/-- `ratToStr` never renders the command letter `M`. -/
lemma ratToStr_ne_M (q : ℚ) : ratToStr q ≠ ("M") := by
  intro h
  have hm : 'M' ∈ (ratToStr q).toList := by
    rw [h]
    decide
  rcases ratToStr_chars q 'M' hm with h1 | h1 | h1 | h1 <;> revert h1 <;> decide

/-- Number of `M` subpath starts in a token list. -/
def countM (tokens : List String) : ℕ := tokens.countP (fun t => t == ("M"))

/-- Modelled from the spec: "two offset ribbon-ring shapes
(outer-contour-minus-inner-contour bands)" — each band contributes an outer
and an inner contour, so the combined path data must contain at least four
`M` subpath starts. -/
def ribbonRingPairSpec (tokens : List String) : Prop := 4 ≤ countM tokens

/-- A subpath that is a plain full circle drawn as two arcs of one radius,
starting and ending at the same point. -/
def fullCircleTwoArc (t : List String) : Prop :=
  ∃ sx sy r x2 y2, t =
    [("M"), sx, sy, ("A"), r, r, ("0"), ("1"), ("1"), x2, y2,
     ("A"), r, r, ("0"), ("1"), ("1"), sx, sy]

lemma countM_fallback (grid : ℚ) : countM (monogramFallbackTokens grid) = 2 := by
  have hne : ∀ q : ℚ, (ratToStr q == ("M")) = false := fun q =>
    beq_eq_false_iff_ne.mpr (ratToStr_ne_M q)
  simp [countM, monogramFallbackTokens, List.countP_cons, hne]

/-- C2 (amended): when the glyph outline provider throws, the monogram
builder falls back to a single concatenated path of **two full-circle
two-arc subpaths** of radius `0.36*grid` about the grid center — exactly 2
subpath starts, hence not a pair of outer-minus-inner ribbon-ring bands. -/
theorem c2_monogram_fallback_amended (ttp : Ttp) (grid strokePx cornerRadiusPx : ℚ)
    (brandName : String) (seedNum : ℕ) (hfail : ∀ a, ttp a = none) :
    buildMonogramInterlock ttp grid strokePx cornerRadiusPx brandName seedNum =
      Sum.inl (monogramFallback grid) ∧
    countM (monogramFallbackTokens grid) = 2 ∧
    ¬ ribbonRingPairSpec (monogramFallbackTokens grid) ∧
    ∃ t1 t2, monogramFallbackTokens grid = t1 ++ t2 ∧
      fullCircleTwoArc t1 ∧ fullCircleTwoArc t2 := by
  refine ⟨?_, countM_fallback grid, ?_, ?_⟩
  · simp [buildMonogramInterlock, hfail]
  · intro h4
    unfold ribbonRingPairSpec at h4
    rw [countM_fallback grid] at h4
    omega
  · refine ⟨[("M"), ratToStr (grid / 2 - grid * (36 / 100)), ratToStr (grid / 2),
      ("A"), ratToStr (grid * (36 / 100)), ratToStr (grid * (36 / 100)),
      ("0"), ("1"), ("1"), ratToStr (grid / 2 + grid * (36 / 100)), ratToStr (grid / 2),
      ("A"), ratToStr (grid * (36 / 100)), ratToStr (grid * (36 / 100)),
      ("0"), ("1"), ("1"), ratToStr (grid / 2 - grid * (36 / 100)), ratToStr (grid / 2)],
      [("M"), ratToStr (grid / 2), ratToStr (grid / 2 - grid * (36 / 100)),
      ("A"), ratToStr (grid * (36 / 100)), ratToStr (grid * (36 / 100)),
      ("0"), ("1"), ("1"), ratToStr (grid / 2), ratToStr (grid / 2 + grid * (36 / 100)),
      ("A"), ratToStr (grid * (36 / 100)), ratToStr (grid * (36 / 100)),
      ("0"), ("1"), ("1"), ratToStr (grid / 2), ratToStr (grid / 2 - grid * (36 / 100))],
      rfl, ?_, ?_⟩
    · exact ⟨_, _, _, _, _, rfl⟩
    · exact ⟨_, _, _, _, _, rfl⟩

/-- C2 witness: failing provider at grid 50; the rendered fallback string is
shown verbatim. -/
theorem c2_witness :
    buildMonogramInterlock ttpFail 50 2 2 ("Acme Corp") 0 = Sum.inl (monogramFallback 50) ∧
    countM (monogramFallbackTokens 50) = 2 ∧
    ¬ ribbonRingPairSpec (monogramFallbackTokens 50) ∧
    (∃ t1 t2, monogramFallbackTokens 50 = t1 ++ t2 ∧
      fullCircleTwoArc t1 ∧ fullCircleTwoArc t2) ∧
    monogramFallback 50 =
      ("M 7 25 A 18 18 0 1 1 43 25 A 18 18 0 1 1 7 25 M 25 7 A 18 18 0 1 1 25 43 A 18 18 0 1 1 25 7") := by
  have h := c2_monogram_fallback_amended ttpFail 50 2 2 ("Acme Corp") 0 (fun _ => rfl)
  exact ⟨h.1, h.2.1, h.2.2.1, h.2.2.2, by with_unfolding_all decide⟩

/-- C2 counterexample: at grid 50 with a failing provider, the fallback has
only two subpath starts (no inner contours, so not two ribbon-ring bands)
and its first subpath is a plain full circle — refuting "two offset
ribbon-ring shapes ... never a plain circle". -/
theorem c2_counterexample :
    buildMonogramInterlock ttpFail 50 2 2 ("Brand") 7 = Sum.inl (monogramFallback 50) ∧
    ¬ ribbonRingPairSpec (monogramFallbackTokens 50) ∧
    fullCircleTwoArc (List.take 19 (monogramFallbackTokens 50)) := by
  refine ⟨by with_unfolding_all decide, ?_, ?_⟩
  · intro h4
    unfold ribbonRingPairSpec at h4
    rw [countM_fallback 50] at h4
    omega
  · refine ⟨("7"), ("25"), ("18"), ("43"), ("25"), ?_⟩
    with_unfolding_all decide

/-! ## Claim C1 — empty device list, compression 1 -/

/-- C1 (amended): with no devices and `compression = 1`, `customizeWordmark`
returns an empty manifest and the base glyphs' path strings joined by
single spaces (falling back to `base.path_d` only when that join is empty)
— not `base.path_d` itself. -/
theorem c1_empty_plan_amended (M : JsMath) (E : ClipExec) (inp : WordmarkCustomizeInput)
    (hdev : inp.plan.devices = []) (hcomp : inp.plan.boldness.compression = 1)
    (out : WordmarkCustomizeOutput) (h : customizeWordmark M E inp = some out) :
    out.manifest = [] ∧
    out.wordmark_path_d =
      (if joinPaths inp.base.glyphs = ("") then inp.base.path_d
       else joinPaths inp.base.glyphs) := by
  have hprep : prepGlyphs inp.base (normalizePlan inp.plan).boldness.compression =
      some inp.base.glyphs := by
    simp [prepGlyphs, normalizePlan, hcomp]
  have hplan : (normalizePlan inp.plan).devices = [] := by
    simp [normalizePlan, hdev]
  simp only [customizeWordmark, hprep, hplan, List.map_nil, runDevices, runDevices2,
    Option.bind_eq_bind, Option.some_bind] at h
  rcases hoa : pathArea inp.base.path_d with _ | oa
  · rw [hoa] at h
    simp at h
  · rw [hoa] at h
    simp only [Option.some_bind] at h
    rcases hmt : computeMetrics inp.base.path_d
        (if joinPaths inp.base.glyphs = ("") then inp.base.path_d
         else joinPaths inp.base.glyphs) (some oa) with _ | mt
    · rw [hmt] at h
      simp at h
    · rw [hmt] at h
      simp only [Option.some_bind] at h
      by_cases hcond : mt.device_visibility < 6 ∨ 95 < mt.default_font_risk
      · rw [if_pos hcond] at h
        by_cases hj : joinPaths inp.base.glyphs = ("")
        · rw [if_neg (by simp [hj])] at h
          simp only [Option.pure_def, Option.some.injEq] at h
          rw [← h]
          exact ⟨rfl, rfl⟩
        · rw [if_pos hj] at h
          rcases hmt2 : computeMetrics inp.base.path_d (joinPaths inp.base.glyphs)
              (some oa) with _ | mt2
          · rw [hmt2] at h
            simp at h
          · rw [hmt2] at h
            simp only [Option.some_bind, Option.pure_def, Option.some.injEq] at h
            rw [← h]
            exact ⟨rfl, by rw [if_neg hj]⟩
      · rw [if_neg hcond] at h
        simp only [Option.pure_def, Option.some.injEq] at h
        rw [← h]
        exact ⟨rfl, rfl⟩

set_option maxRecDepth 40000 in
/-- C1 witness: a concrete base with one glyph. -/
theorem c1_witness :
    (⟨("M 0 0 L 2 0 L 2 2 L 0 2 Z"), [], ⟨75, 100, 25, 0⟩⟩ :
        WordmarkCustomizeOutput).manifest = [] ∧
    (⟨("M 0 0 L 2 0 L 2 2 L 0 2 Z"), [], ⟨75, 100, 25, 0⟩⟩ :
        WordmarkCustomizeOutput).wordmark_path_d =
      (if joinPaths baseSquare.glyphs = ("") then baseSquare.path_d
       else joinPaths baseSquare.glyphs) :=
  c1_empty_plan_amended jsMathZero clipNone ⟨baseSquare, planEmpty, ("s")⟩ rfl rfl
    ⟨("M 0 0 L 2 0 L 2 2 L 0 2 Z"), [], ⟨75, 100, 25, 0⟩⟩
    (by with_unfolding_all decide)

set_option maxRecDepth 40000 in
/-- C1 counterexample: for a base whose glyph path differs textually from
`base.path_d`, the returned `wordmark_path_d` is the glyph join, not
`base.path_d`, refuting "a wordmark_path_d identical to the input base
path" (the manifest is indeed `[]`). -/
theorem c1_counterexample :
    (customizeWordmark jsMathZero clipNone ⟨baseSquare, planEmpty, ("s")⟩).map
        (fun o => (o.wordmark_path_d, o.manifest)) =
      some (("M 0 0 L 2 0 L 2 2 L 0 2 Z"), ([] : List DeviceManifestItem)) ∧
    ("M 0 0 L 2 0 L 2 2 L 0 2 Z") ≠ baseSquare.path_d := by
  with_unfolding_all decide

/-! ## Claim C9 — spacing consistency vs. advance variance -/

/-- The returned `spacingConsistency` is the rounded spacing score of the
advances (shared projection lemma). -/
lemma evaluator_spacing_proj (inp : WordmarkEvaluatorInput) :
    (runWordmarkEvaluator inp).breakdown.spacingConsistency =
      jsRound10 (spacingScore inp.advances) := rfl

lemma foldl_add_sq_le (m : ℝ) : ∀ (l : List ℝ) (init : ℝ),
    init ≤ l.foldl (fun acc v => acc + (v - m) ^ 2) init := by
  intro l
  induction l with
  | nil =>
    intro init
    simp
  | cons a t ih =>
    intro init
    rw [List.foldl_cons]
    exact le_trans (le_add_of_nonneg_right (sq_nonneg _)) (ih _)

lemma listVariance_nonneg (l : List ℝ) : 0 ≤ listVariance l := by
  unfold listVariance
  apply div_nonneg
  · exact foldl_add_sq_le (listMean l) l 0
  · positivity

/-- C9 (amended): `spacingConsistency` is the 0.1-rounded clamped score
`max(0, 100 - (stddev/mean)*200)`; increasing the variance at constant
positive mean strictly decreases the **unclamped** score, hence the
spacing score, provided the higher-variance configuration still lies above
the 0 clamp.  (Scores clamped to 0, or configurations with nonpositive
mean, need not strictly decrease — see the counterexample.) -/
theorem c9_spacing_amended :
    (∀ inp : WordmarkEvaluatorInput,
      (runWordmarkEvaluator inp).breakdown.spacingConsistency =
        jsRound10 (spacingScore inp.advances)) ∧
    (∀ a1 a2 : List ℝ, 2 ≤ a1.length → 2 ≤ a2.length →
      listMean a1 = listMean a2 → 0 < listMean a1 →
      listVariance a1 < listVariance a2 →
      0 < 100 - Real.sqrt (listVariance a2) / listMean a2 * 200 →
      spacingScore a2 < spacingScore a1) := by
  constructor
  · exact evaluator_spacing_proj
  · intro a1 a2 h1 h2 hm hm0 hv hpos
    have hm0' : 0 < listMean a2 := hm ▸ hm0
    have hs : Real.sqrt (listVariance a1) < Real.sqrt (listVariance a2) :=
      Real.sqrt_lt_sqrt (listVariance_nonneg a1) hv
    have hraw : 100 - Real.sqrt (listVariance a2) / listMean a2 * 200 <
        100 - Real.sqrt (listVariance a1) / listMean a1 * 200 := by
      rw [hm]
      have hdiv : Real.sqrt (listVariance a1) / listMean a2 <
          Real.sqrt (listVariance a2) / listMean a2 :=
        (div_lt_div_iff_of_pos_right hm0').mpr hs
      linarith
    have e1 : spacingScore a1 = max 0 (100 - Real.sqrt (listVariance a1) / listMean a1 * 200) := by
      unfold spacingScore
      rw [if_pos h1, if_pos hm0]
    have e2 : spacingScore a2 = max 0 (100 - Real.sqrt (listVariance a2) / listMean a2 * 200) := by
      unfold spacingScore
      rw [if_pos h2, if_pos hm0']
    rw [e1, e2, max_eq_right (le_of_lt hpos), max_eq_right (le_of_lt (lt_trans hpos hraw))]
    exact hraw

/-- C9 witness: advances `[7,13]` vs `[6,14]` (mean 10, variances 9 < 16):
the spacing score strictly decreases (40 to 20). -/
theorem c9_witness : spacingScore [(6 : ℝ), 14] < spacingScore [(7 : ℝ), 13] := by
  have hmean1 : listMean [(7 : ℝ), 13] = 10 := by
    simp [listMean]
    norm_num
  have hmean2 : listMean [(6 : ℝ), 14] = 10 := by
    simp [listMean]
    norm_num
  have hvar1 : listVariance [(7 : ℝ), 13] = 9 := by
    simp [listVariance, listMean]
    norm_num
  have hvar2 : listVariance [(6 : ℝ), 14] = 16 := by
    simp [listVariance, listMean]
    norm_num
  have hsqrt : Real.sqrt 16 = 4 := by
    rw [show (16 : ℝ) = 4 ^ 2 by norm_num, Real.sqrt_sq (by norm_num : (0 : ℝ) ≤ 4)]
  refine (c9_spacing_amended).2 [(7 : ℝ), 13] [(6 : ℝ), 14] (by simp) (by simp) ?_ ?_ ?_ ?_
  · rw [hmean1, hmean2]
  · rw [hmean1]
    norm_num
  · rw [hvar1, hvar2]
    norm_num
  · rw [hvar2, hmean2, hsqrt]
    norm_num

/-- C9 counterexample input, advances `[1, 19]`. -/
noncomputable def evalInA : WordmarkEvaluatorInput := ⟨⟨0, 0, 10, 10⟩, [], none, [1, 19]⟩

/-- C9 counterexample input, advances `[0, 20]`. -/
noncomputable def evalInB : WordmarkEvaluatorInput := ⟨⟨0, 0, 10, 10⟩, [], none, [0, 20]⟩

/-- C9 counterexample: both advance lists have mean 10 and variances
81 < 100, yet both spacing scores clamp to 0 — the returned
`spacingConsistency` does not strictly decrease. -/
theorem c9_counterexample :
    listMean [(1 : ℝ), 19] = listMean [(0 : ℝ), 20] ∧
    listVariance [(1 : ℝ), 19] < listVariance [(0 : ℝ), 20] ∧
    (runWordmarkEvaluator evalInA).breakdown.spacingConsistency =
      (runWordmarkEvaluator evalInB).breakdown.spacingConsistency := by
  have hmean1 : listMean [(1 : ℝ), 19] = 10 := by
    simp [listMean]
    norm_num
  have hmean2 : listMean [(0 : ℝ), 20] = 10 := by
    simp [listMean]
    norm_num
  have hvar1 : listVariance [(1 : ℝ), 19] = 81 := by
    simp [listVariance, listMean]
    norm_num
  have hvar2 : listVariance [(0 : ℝ), 20] = 100 := by
    simp [listVariance, listMean]
    norm_num
  have hsqrt81 : Real.sqrt 81 = 9 := by
    rw [show (81 : ℝ) = 9 ^ 2 by norm_num, Real.sqrt_sq (by norm_num : (0 : ℝ) ≤ 9)]
  have hsqrt100 : Real.sqrt 100 = 10 := by
    rw [show (100 : ℝ) = 10 ^ 2 by norm_num, Real.sqrt_sq (by norm_num : (0 : ℝ) ≤ 10)]
  have hs1 : spacingScore [(1 : ℝ), 19] = 0 := by
    unfold spacingScore
    rw [if_pos (by simp), if_pos (by rw [hmean1]; norm_num), hvar1, hmean1, hsqrt81]
    rw [max_eq_left (by norm_num)]
  have hs2 : spacingScore [(0 : ℝ), 20] = 0 := by
    unfold spacingScore
    rw [if_pos (by simp), if_pos (by rw [hmean2]; norm_num), hvar2, hmean2, hsqrt100]
    rw [max_eq_left (by norm_num)]
  refine ⟨by rw [hmean1, hmean2], by rw [hvar1, hvar2]; norm_num, ?_⟩
  rw [evaluator_spacing_proj, evaluator_spacing_proj]
  show jsRound10 (spacingScore [(1 : ℝ), 19]) = jsRound10 (spacingScore [(0 : ℝ), 20])
  rw [hs1, hs2]

/-! ## Claim C3 — the sanity checks of `generateMotifMark` -/

lemma containsSeq_iff_infix (pat : List Char) : ∀ l, containsSeq pat l = true ↔ pat <:+: l := by
  intro l
  induction l with
  | nil =>
    simp only [containsSeq, List.isEmpty_iff, List.infix_nil]
  | cons c r ih =>
    simp only [containsSeq, Bool.or_eq_true, List.isPrefixOf_iff_prefix, ih,
      List.infix_cons_iff]

lemma jsIncludes_true_iff (s pat : String) :
    jsIncludes s pat = true ↔ pat.toList <:+: s.toList :=
  containsSeq_iff_infix pat.toList s.toList

lemma toList_append (a b : String) : (a ++ b).toList = a.toList ++ b.toList := rfl

/-- A pattern that occurs in a known prefix occurs in the whole string. -/
lemma infix_of_prefix_part {pat : List Char} (a b : String)
    (h : pat <:+: a.toList) : pat <:+: (a ++ b).toList := by
  rw [toList_append]
  exact h.trans (List.prefix_append a.toList b.toList).isInfix

/-- The two-element monogram output of `buildMarkPath`. -/
lemma buildMarkPath_inr (M : JsMath) (ttp : Ttp) (input : MotifMarkInput)
    (ps : List TransformedPath) (h : buildMarkPath M ttp input = Sum.inr ps) :
    ∃ p1 p2, ps = [p1, p2] := by
  unfold buildMarkPath at h
  cases hfam : input.motif_family
  all_goals rw [hfam] at h
  case loop => simp at h
  case interlock => simp at h
  case orbit => simp at h
  case fold => simp at h
  case swap => simp at h
  case monogram_interlock =>
    dsimp only at h
    unfold buildMonogramInterlock at h
    dsimp only at h
    split at h
    · simp at h
    · split at h
      all_goals try split at h
      all_goals first
        | exact absurd h Sum.inl_ne_inr
        | (simp only [Sum.inr.injEq] at h; exact ⟨_, _, h.symm⟩)

lemma intercalate_pair (s a b : String) : String.intercalate s [a, b] = a ++ s ++ b := rfl

/-- The literal path-open piece of the `<path>` line contains the tag. -/
lemma path_tag_prefix : ("<path").toList <:+: ("  <path d=\"").toList :=
  (jsIncludes_true_iff ("  <path d=\"") ("<path")).mp (by decide)

/-- A pattern that occurs in the middle part occurs in the assembled string. -/
lemma infix_of_middle {pat : List Char} (a b c : String)
    (h : pat <:+: b.toList) : pat <:+: ((a ++ b) ++ c).toList := by
  have e : ((a ++ b) ++ c).toList = a.toList ++ b.toList ++ c.toList := rfl
  rw [e]
  exact h.trans (List.infix_append a.toList b.toList c.toList)

/-- Every svg the motif tool assembles contains a `<path` tag: the single-path
branch interpolates it literally and the monogram two-path branch emits two
`<path` lines. -/
lemma motifSvg_has_path (M : JsMath) (ttp : Ttp) (input : MotifMarkInput) :
    jsIncludes (motifSvg M ttp input) ("<path") = true := by
  rw [jsIncludes_true_iff]
  unfold motifSvg
  rcases hbp : buildMarkPath M ttp input with s | ps
  · dsimp only
    refine infix_of_middle _ _ _ ?_
    repeat apply infix_of_prefix_part
    exact path_tag_prefix
  · obtain ⟨p1, p2, rfl⟩ := buildMarkPath_inr M ttp input ps hbp
    dsimp only
    refine infix_of_middle _ _ _ ?_
    simp only [List.map]
    rw [intercalate_pair]
    repeat apply infix_of_prefix_part
    exact path_tag_prefix

/-- C3: `generateMotifMark` errors exactly when the assembled svg contains
the substring `<text`; the svg always contains a `<path` tag, so the
claim's abort condition "a lone `<circle>` with no supporting path content"
never arises (an error can be produced whenever it would hold); and every
successfully returned `mark_svg` is free of `<text`. -/
theorem c3_sanity_checks (M : JsMath) (ttp : Ttp) (input : MotifMarkInput) :
    (generateMotifMark M ttp input =
        Except.error ("Mark SVG contains <text> tag - must be path-only") ↔
      jsIncludes (motifSvg M ttp input) ("<text") = true) ∧
    jsIncludes (motifSvg M ttp input) ("<path") = true ∧
    (jsIncludes (motifSvg M ttp input) ("<circle") = true ∧
        jsIncludes (motifSvg M ttp input) ("<path") = false →
      ∃ e, generateMotifMark M ttp input = Except.error e) ∧
    ∀ out, generateMotifMark M ttp input = Except.ok out →
      jsIncludes out.mark_svg ("<text") = false := by
  have hp := motifSvg_has_path M ttp input
  refine ⟨?_, hp, ?_, ?_⟩
  · by_cases ht : jsIncludes (motifSvg M ttp input) ("<text") = true
    · simp [generateMotifMark, ht]
    · simp [generateMotifMark, ht]
  · rintro ⟨-, hnp⟩
    rw [hp] at hnp
    exact absurd hnp (by simp)
  · intro out hout
    by_cases ht : jsIncludes (motifSvg M ttp input) ("<text") = true
    · simp only [generateMotifMark, if_pos ht] at hout
      exact absurd hout (by simp)
    · simp only [generateMotifMark, if_neg ht] at hout
      injection hout with h2
      subst h2
      simpa using ht

/-- A name whose aria-label interpolation smuggles a `<text` substring in. -/
def c3InText : MotifMarkInput :=
  ⟨"Acme <textile", MotifFamily.loop, ("s"), 24, 2, 0, ("#112233"), some 0, some true⟩

/-- A plain loop-family input. -/
def c3InLoop : MotifMarkInput :=
  ⟨"Acme", MotifFamily.loop, ("s"), 24, 2, 0, ("#112233"), some 0, some true⟩

set_option maxRecDepth 40000 in
/-- The text guard fires on a name carrying `<text`, and a plain loop mark is
returned with a `<text`-free svg. -/
theorem c3_witness :
    generateMotifMark jsMathZero ttpFail c3InText =
        Except.error ("Mark SVG contains <text> tag - must be path-only") ∧
    ∃ out, generateMotifMark jsMathZero ttpFail c3InLoop = Except.ok out ∧
      jsIncludes out.mark_svg ("<text") = false := by
  have hok : generateMotifMark jsMathZero ttpFail c3InLoop =
      Except.ok ⟨motifSvg jsMathZero ttpFail c3InLoop,
        ⟨c3InLoop.grid, max c3InLoop.stroke_px (5 * (c3InLoop.grid / 640)),
          c3InLoop.corner_radius_px⟩⟩ := by
    with_unfolding_all rfl
  refine ⟨(c3_sanity_checks jsMathZero ttpFail c3InText).1.mpr
      (by with_unfolding_all decide), ?_⟩
  exact ⟨_, hok, (c3_sanity_checks jsMathZero ttpFail c3InLoop).2.2.2 _ hok⟩

/-! ## Claim C6 — glyph indices are consumed at most once -/

lemma findGlyphIndexAux_first (l : String) (used : List ℕ) :
    ∀ gs k i, findGlyphIndexAux l used gs k = some i ↔
      (k ≤ i ∧ i - k < gs.length ∧
        (gs.getD (i - k) gdefault).char.toLower = l ∧ i ∉ used ∧
        ∀ j, k ≤ j → j < i →
          ¬((gs.getD (j - k) gdefault).char.toLower = l ∧ j ∉ used)) := by
  intro gs
  induction gs with
  | nil =>
    intro k i
    exact ⟨fun h => absurd h (by simp [findGlyphIndexAux]),
      fun h => absurd h.2.1 (by simp)⟩
  | cons g gs ih =>
    intro k i
    simp only [findGlyphIndexAux, List.length_cons]
    by_cases hc : (g.char.toLower = l ∧ ¬ k ∈ used)
    · rw [if_pos hc]
      constructor
      · intro h
        injection h with h
        subst h
        refine ⟨le_refl _, by omega, by simpa using hc.1, hc.2, ?_⟩
        intro j h1 h2
        omega
      · rintro ⟨h1, h2, h3, h4, h5⟩
        by_cases hik : i = k
        · subst hik; rfl
        · exact absurd (by simpa using hc) (h5 k (le_refl k) (by omega))
    · rw [if_neg hc, ih (k + 1) i]
      constructor
      · rintro ⟨h1, h2, h3, h4, h5⟩
        have e : i - k = (i - (k + 1)) + 1 := by omega
        refine ⟨by omega, by omega, by rw [e, List.getD_cons_succ]; exact h3, h4, ?_⟩
        intro j hj1 hj2
        by_cases hjk : j = k
        · subst hjk
          simp only [Nat.sub_self, List.getD_cons_zero]
          exact hc
        · have ej : j - k = (j - (k + 1)) + 1 := by omega
          rw [ej, List.getD_cons_succ]
          exact h5 j (by omega) hj2
      · rintro ⟨h1, h2, h3, h4, h5⟩
        have hik : i ≠ k := by
          rintro rfl
          exact hc (by simpa using And.intro h3 h4)
        have e : i - k = (i - (k + 1)) + 1 := by omega
        rw [e, List.getD_cons_succ] at h3
        refine ⟨by omega, by omega, h3, h4, ?_⟩
        intro j hj1 hj2
        have := h5 j (by omega) hj2
        have ej : j - k = (j - (k + 1)) + 1 := by omega
        rw [ej, List.getD_cons_succ] at this
        exact this

/-- `findGlyphIndex` finds the first case-insensitive, unused match. -/
lemma findGlyphIndex_first_spec (glyphs : List GlyphRun) (letter : String)
    (used : List ℕ) (i : ℕ) :
    findGlyphIndex glyphs letter used = some i ↔
      (i < glyphs.length ∧
        (glyphs.getD i gdefault).char.toLower = letter.toLower ∧ i ∉ used ∧
        ∀ j, j < i →
          ¬((glyphs.getD j gdefault).char.toLower = letter.toLower ∧ j ∉ used)) := by
  unfold findGlyphIndex
  rw [findGlyphIndexAux_first]
  constructor
  · rintro ⟨h1, h2, h3, h4, h5⟩
    exact ⟨by simpa using h2, by simpa using h3, h4,
      fun j hj => by simpa using h5 j (Nat.zero_le j) hj⟩
  · rintro ⟨h1, h2, h3, h4⟩
    exact ⟨Nat.zero_le i, by simpa using h1, by simpa using h2, h3,
      fun j _ hj => by simpa using h4 j hj⟩

lemma findGlyphIndex_not_used {glyphs : List GlyphRun} {letter : String}
    {used : List ℕ} {i : ℕ} (h : findGlyphIndex glyphs letter used = some i) :
    i ∉ used :=
  ((findGlyphIndex_first_spec glyphs letter used i).mp h).2.2.1

/-- Erasing the per-device consumed-index trace recovers the manifest loop. -/
lemma runDevices_eq_T (M : JsMath) (E : ClipExec) :
    ∀ devs glyphs used manifest,
      runDevices M E devs glyphs used manifest =
        ((runDevicesT M E devs glyphs used).1,
         (runDevicesT M E devs glyphs used).2.1,
         manifest ++ (runDevicesT M E devs glyphs used).2.2.map Prod.fst) := by
  intro devs
  induction devs with
  | nil => intro g u m; simp [runDevices, runDevicesT]
  | cons dev devs ih =>
    intro g u m
    cases dev with
    | notch_cut letter side depth width =>
      simp only [runDevices, runDevicesT]
      rcases hf : findGlyphIndex g letter u with _ | idx <;> simp only [hf]
      · rw [ih]; simp
      · rcases ha : applyNotchCut E (g[idx]?.getD gdefault) side depth width with _ | p
        · simp [ha, ih]
        · simp [ha, ih]
    | seam_cut letter angle_deg thickness offset =>
      simp only [runDevices, runDevicesT]
      rcases hf : findGlyphIndex g letter u with _ | idx <;> simp only [hf]
      · rw [ih]; simp
      · rcases ha : applySeamCut M E (g[idx]?.getD gdefault) angle_deg thickness offset with _ | p
        · simp [ha, ih]
        · simp [ha, ih]
    | ligature_bridge lfrom lto thickness y_pos =>
      simp only [runDevices, runDevicesT]
      rcases hfa : findGlyphIndex g lfrom u with _ | ia
      · simp [hfa, ih]
      · rcases hfb : findGlyphIndex g lto u with _ | ib
        · simp [hfa, hfb, ih]
        · by_cases hne : ia ≠ ib
          · rcases ha : applyLigatureBridge E (g[ia]?.getD gdefault) (g[ib]?.getD gdefault)
                thickness y_pos with _ | p
            · simp [hfa, hfb, hne, ha, ih]
            · simp [hfa, hfb, hne, ha, ih]
          · simp only [not_not] at hne
            simp [hfa, hfb, hne, ih]

/-- The manifest-less retry loop computes the same glyphs and used set. -/
lemma runDevices2_eq_T (M : JsMath) (E : ClipExec) :
    ∀ devs glyphs used,
      runDevices2 M E devs glyphs used =
        ((runDevicesT M E devs glyphs used).1, (runDevicesT M E devs glyphs used).2.1) := by
  intro devs
  induction devs with
  | nil => intro g u; simp [runDevices2, runDevicesT]
  | cons dev devs ih =>
    intro g u
    cases dev with
    | notch_cut letter side depth width =>
      simp only [runDevices2, runDevicesT]
      rcases hf : findGlyphIndex g letter u with _ | idx <;> simp only [hf]
      · rw [ih]
      · rcases ha : applyNotchCut E (g[idx]?.getD gdefault) side depth width with _ | p
        · simp [ha, ih]
        · simp [ha, ih]
    | seam_cut letter angle_deg thickness offset =>
      simp only [runDevices2, runDevicesT]
      rcases hf : findGlyphIndex g letter u with _ | idx <;> simp only [hf]
      · rw [ih]
      · rcases ha : applySeamCut M E (g[idx]?.getD gdefault) angle_deg thickness offset with _ | p
        · simp [ha, ih]
        · simp [ha, ih]
    | ligature_bridge lfrom lto thickness y_pos =>
      simp only [runDevices2, runDevicesT]
      rcases hfa : findGlyphIndex g lfrom u with _ | ia
      · simp [hfa, ih]
      · rcases hfb : findGlyphIndex g lto u with _ | ib
        · simp [hfa, hfb, ih]
        · by_cases hne : ia ≠ ib
          · rcases ha : applyLigatureBridge E (g[ia]?.getD gdefault) (g[ib]?.getD gdefault)
              thickness y_pos with _ | p
            · simp [hfa, hfb, hne, ha, ih]
            · simp [hfa, hfb, hne, ha, ih]
          · simp only [not_not] at hne
            simp [hfa, hfb, hne, ih]

/-- One step of the instrumented loop: some manifest entry and consumed-index
list are emitted, the consumed indices avoid the incoming used set, and the
loop recurs on a used set holding exactly the consumed and old indices. -/
lemma runDevicesT_cons (M : JsMath) (E : ClipExec) (dev : DeviceSpec)
    (devs : List DeviceSpec) (g : List GlyphRun) (u : List ℕ) :
    ∃ ent cons g' u',
      (∀ k ∈ cons, k ∉ u) ∧
      (∀ k, k ∈ u' ↔ k ∈ cons ∨ k ∈ u) ∧
      runDevicesT M E (dev :: devs) g u =
        ((runDevicesT M E devs g' u').1, (runDevicesT M E devs g' u').2.1,
          (ent, cons) :: (runDevicesT M E devs g' u').2.2) := by
  cases dev with
  | notch_cut letter side depth width =>
    rcases hf : findGlyphIndex g letter u with _ | idx
    · exact ⟨⟨("notch_cut"), letter, false⟩, [], g, u, by simp, by simp,
        by simp [runDevicesT, hf]⟩
    · rcases ha : applyNotchCut E (g[idx]?.getD gdefault) side depth width with _ | p
      · exact ⟨⟨("notch_cut"), letter, false⟩, [], g, u, by simp, by simp,
          by simp [runDevicesT, hf, ha]⟩
      · refine ⟨⟨("notch_cut"), letter, true⟩, [idx],
          g.set idx { g.getD idx gdefault with path_d := p }, idx :: u, ?_, ?_, ?_⟩
        · simpa using findGlyphIndex_not_used hf
        · intro k; simp
        · simp [runDevicesT, hf, ha]
  | seam_cut letter angle_deg thickness offset =>
    rcases hf : findGlyphIndex g letter u with _ | idx
    · exact ⟨⟨("seam_cut"), letter, false⟩, [], g, u, by simp, by simp,
        by simp [runDevicesT, hf]⟩
    · rcases ha : applySeamCut M E (g[idx]?.getD gdefault) angle_deg thickness offset with _ | p
      · exact ⟨⟨("seam_cut"), letter, false⟩, [], g, u, by simp, by simp,
          by simp [runDevicesT, hf, ha]⟩
      · refine ⟨⟨("seam_cut"), letter, true⟩, [idx],
          g.set idx { g.getD idx gdefault with path_d := p }, idx :: u, ?_, ?_, ?_⟩
        · simpa using findGlyphIndex_not_used hf
        · intro k; simp
        · simp [runDevicesT, hf, ha]
  | ligature_bridge lfrom lto thickness y_pos =>
    rcases hfa : findGlyphIndex g lfrom u with _ | ia
    · exact ⟨⟨("ligature_bridge"), lfrom ++ ("-") ++ lto, false⟩, [], g, u, by simp, by simp,
        by simp [runDevicesT, hfa]⟩
    · rcases hfb : findGlyphIndex g lto u with _ | ib
      · exact ⟨⟨("ligature_bridge"), lfrom ++ ("-") ++ lto, false⟩, [], g, u, by simp, by simp,
          by simp [runDevicesT, hfa, hfb]⟩
      · by_cases hne : ia ≠ ib
        · rcases ha : applyLigatureBridge E (g[ia]?.getD gdefault) (g[ib]?.getD gdefault)
              thickness y_pos with _ | p
          · exact ⟨⟨("ligature_bridge"), lfrom ++ ("-") ++ lto, false⟩, [], g, u, by simp,
              by simp, by simp [runDevicesT, hfa, hfb, hne, ha]⟩
          · refine ⟨⟨("ligature_bridge"), lfrom ++ ("-") ++ lto, true⟩, [ia, ib],
              (g.set ia { g.getD ia gdefault with path_d := p }).set ib
                { g.getD ib gdefault with path_d := ("") },
              ib :: ia :: u, ?_, ?_, ?_⟩
            · intro k hk
              rcases List.mem_cons.mp hk with rfl | hk
              · exact findGlyphIndex_not_used hfa
              · simp only [List.mem_singleton] at hk
                subst hk
                exact findGlyphIndex_not_used hfb
            · intro k
              simp only [List.mem_cons, List.mem_singleton, List.not_mem_nil, or_false]
              tauto
            · simp [runDevicesT, hfa, hfb, hne, ha]
        · simp only [not_not] at hne
          exact ⟨⟨("ligature_bridge"), lfrom ++ ("-") ++ lto, false⟩, [], g, u, by simp,
            by simp, by simp [runDevicesT, hfa, hfb, hne]⟩

/-- Indices consumed along the trace avoid the incoming used set, and the
per-device consumed lists are pairwise disjoint. -/
lemma runDevicesT_fresh (M : JsMath) (E : ClipExec) :
    ∀ devs glyphs used,
      (∀ e ∈ (runDevicesT M E devs glyphs used).2.2, ∀ k ∈ e.2, k ∉ used) ∧
      List.Pairwise (fun a b => ∀ k ∈ b.2, k ∉ a.2)
        (runDevicesT M E devs glyphs used).2.2 := by
  intro devs
  induction devs with
  | nil => intro g u; simp [runDevicesT]
  | cons dev devs ih =>
    intro g u
    obtain ⟨ent, cons, g', u', hcu, hiff, heq⟩ := runDevicesT_cons M E dev devs g u
    rw [heq]
    dsimp only
    constructor
    · intro e he k hk
      rcases List.mem_cons.mp he with rfl | he
      · exact hcu k hk
      · have h1 := (ih g' u').1 e he k hk
        exact fun hm => h1 ((hiff k).mpr (Or.inr hm))
    · refine List.Pairwise.cons ?_ (ih g' u').2
      intro b hb k hk
      have h1 := (ih g' u').1 b hb k hk
      exact fun hm => h1 ((hiff k).mpr (Or.inl hm))

/-- C6: `findGlyphIndex` returns the first glyph whose character matches the
letter case-insensitively and whose index is unused; the device loop's
manifest is the trace's manifest with per-device consumed indices erased;
and along a pass started with an empty used set the consumed-index lists of
the devices are pairwise disjoint — every glyph index is consumed by at
most one applied device. -/
theorem c6_glyph_consumption (M : JsMath) (E : ClipExec) (glyphs : List GlyphRun)
    (letter : String) (used : List ℕ) (i : ℕ) (devs : List DeviceSpec)
    (g0 : List GlyphRun) :
    (findGlyphIndex glyphs letter used = some i ↔
      (i < glyphs.length ∧
        (glyphs.getD i gdefault).char.toLower = letter.toLower ∧ i ∉ used ∧
        ∀ j, j < i →
          ¬((glyphs.getD j gdefault).char.toLower = letter.toLower ∧ j ∉ used))) ∧
    runDevices M E devs g0 [] [] =
      ((runDevicesT M E devs g0 []).1, (runDevicesT M E devs g0 []).2.1,
        (runDevicesT M E devs g0 []).2.2.map Prod.fst) ∧
    List.Pairwise (fun a b => ∀ k ∈ b.2, k ∉ a.2)
      (runDevicesT M E devs g0 []).2.2 := by
  refine ⟨findGlyphIndex_first_spec glyphs letter used i, ?_,
    (runDevicesT_fresh M E devs g0 []).2⟩
  simpa using runDevices_eq_T M E devs g0 [] []

/-- Three glyphs over which the first-unused-match rule is exercised. -/
def c6Glyphs : List GlyphRun :=
  [⟨0, ("A"), ("pA"), ⟨0, 0, 1, 1⟩, 1⟩,
   ⟨1, ("b"), ("pb"), ⟨1, 0, 1, 1⟩, 1⟩,
   ⟨2, ("B"), ("pB"), ⟨2, 0, 1, 1⟩, 1⟩]

/-- With glyph 1 already used, the device targeting `B` falls through to the
case-insensitive match at index 2. -/
theorem c6_witness : findGlyphIndex c6Glyphs ("B") [1] = some 2 :=
  (c6_glyph_consumption jsMathZero clipNone c6Glyphs ("B") [1] 2 [] []).1.mpr
    ⟨by decide, by with_unfolding_all decide, by decide, by
      intro j hj
      interval_cases j <;> with_unfolding_all decide⟩

/-! ## Claim C4 — the single-retry policy -/

set_option maxHeartbeats 1000000 in
/-- C4: `customizeWordmark` equals its first pass followed by at most one
retry, entered exactly when `device_visibility < 6` or
`default_font_risk > 95`; the retry rebuilds from the original base glyphs
with every device intensified (notch depth/width ×1.2, seam thickness
×1.2, ligature thickness ×1.15), recomputes metrics on the intensified
combined path, and is preferred only when that path is non-empty,
otherwise the first result is kept. -/
theorem c4_retry_policy (M : JsMath) (E : ClipExec) (input : WordmarkCustomizeInput) :
    (customizeWordmark M E input =
      (firstPass M E input).bind (fun fst =>
        if fst.metrics.device_visibility < 6 ∨ 95 < fst.metrics.default_font_risk then
          (intensifiedCombined M E input).bind (fun c2 =>
            if c2 ≠ ("") then
              (pathArea input.base.path_d).bind (fun oa =>
                (computeMetrics input.base.path_d c2 (some oa)).map (fun m2 =>
                  (⟨c2, fst.manifest, m2⟩ : WordmarkCustomizeOutput)))
            else some fst)
        else some fst)) ∧
    (∀ l s d w, intensifyDevice (DeviceSpec.notch_cut l s d w) =
        DeviceSpec.notch_cut l s (d * (12 / 10)) (w * (12 / 10))) ∧
    (∀ l a t o, intensifyDevice (DeviceSpec.seam_cut l a t o) =
        DeviceSpec.seam_cut l a (t * (12 / 10)) o) ∧
    (∀ f t th y, intensifyDevice (DeviceSpec.ligature_bridge f t th y) =
        DeviceSpec.ligature_bridge f t (th * (115 / 100)) y) := by
  refine ⟨?_, fun l s d w => rfl, fun l a t o => rfl, fun f t th y => rfl⟩
  unfold customizeWordmark firstPass intensifiedCombined
  rcases hp : prepGlyphs input.base (normalizePlan input.plan).boldness.compression with _ | g0
  · simp [hp]
  · rcases ha : pathArea input.base.path_d with _ | oa
    · simp [hp, ha]
    · rcases hm : computeMetrics input.base.path_d
          (if joinPaths (runDevices M E (normalizePlan input.plan).devices g0 [] []).1 = ("")
            then input.base.path_d
            else joinPaths (runDevices M E (normalizePlan input.plan).devices g0 [] []).1)
          (some oa) with _ | m
      · simp [hp, ha, hm]
      · have hbridge :
            (runDevices2 M E ((normalizePlan input.plan).devices.map intensifyDevice) g0 []).1
              = (runDevices M E ((normalizePlan input.plan).devices.map intensifyDevice)
                  g0 [] []).1 := by
          rw [runDevices2_eq_T, runDevices_eq_T]
        by_cases hc : m.device_visibility < 6 ∨ 95 < m.default_font_risk
        · by_cases h2 : joinPaths
              (runDevices2 M E ((normalizePlan input.plan).devices.map intensifyDevice) g0 []).1
              = ("")
          · rw [hbridge] at h2
            simp [hp, ha, hm, hc, h2, hbridge]
          · rw [hbridge] at h2
            rcases hm2 : computeMetrics input.base.path_d
                (joinPaths (runDevices M E
                  ((normalizePlan input.plan).devices.map intensifyDevice) g0 [] []).1)
                (some oa) with _ | m2
            · simp [hp, ha, hm, hc, h2, hbridge, hm2]
            · simp [hp, ha, hm, hc, h2, hbridge, hm2]
        · simp [hp, ha, hm, hc]

end BrandStudio
